import Mathlib

/-!
Shallow embedding of the JSON codec layer of the `openapi3` package
(`src/unnamed/part_000`): the generated OpenAPI 3.0 node types together with
their `UnmarshalJSON` / `MarshalJSON` methods and the byte-level
`marshalUnion` encoder helper.

Modelling conventions.

* JSON documents are modelled by the inductive `Json`.  Go's
  `map[string]json.RawMessage` (the `rawMap` working copy) and
  `map[string]interface{}` buckets become association lists in textual
  order; Go map iteration order is unspecified, the model iterates in list
  order.  JSON numbers are modelled as integers; no claim touches
  fractional values.
* The relevant `encoding/json` behaviours for the field shapes used by the
  package are modelled by the small `dec*` helpers: a JSON `null` sets a
  pointer field to nil, an absent key keeps the receiver's previous field
  value, presence of a key with any structurally well-typed value sets the
  field, decoding `null` into a whole struct is a no-op.  The exact message
  texts of stdlib decode errors are abbreviated (`jsonTypeErr`); every
  message built by the package itself (`errors.New` / `fmt.Errorf`) is
  reproduced verbatim.
* Serialized JSON is a `List Char` (Go `[]byte`); `marshalUnion` is a
  direct translation of the byte-level merge loop, and `unionJson` is the
  same merge on parsed values, used for the nested `MarshalJSON` calls that
  Go performs through `json.Marshal` on fragment values.
* Recursive node families (`Schema`/`SchemaOrRef`/`MediaType`/`Encoding`/
  `Header`) are decoded with an explicit fuel parameter for totality; all
  claims are stated relative to an arbitrary fuel.
-/

namespace Openapi3

/-- A parsed JSON document (Go's generic `interface{}` tree; object member
order is the textual order of the document). -/
inductive Json where
  | null : Json
  | bool : Bool → Json
  | num : Int → Json
  | str : String → Json
  | arr : List Json → Json
  | obj : List (String × Json) → Json

/-- Escape one character the way `encoding/json` escapes string contents
(quotation mark and backslash; other escapes are irrelevant to the claims). -/
def escChar (c : Char) : List Char :=
  if c = '"' ∨ c = '\\' then ['\\', c] else [c]

/-- Serialize a string literal with surrounding quotes. -/
def escString (s : String) : List Char :=
  '"' :: (s.data.foldr (fun c acc => escChar c ++ acc) ['"'])

mutual

/-- Compact serialization of a JSON value, as `json.Marshal` renders it. -/
def Json.serialize : Json → List Char
  | .null => "null".data
  | .bool true => "true".data
  | .bool false => "false".data
  | .num n => (toString n).data
  | .str s => escString s
  | .arr xs => '[' :: Json.serializeArr xs ++ [']']
  | .obj fs => '{' :: Json.serializeObj fs ++ ['}']

/-- Comma-separated serialization of array elements. -/
def Json.serializeArr : List Json → List Char
  | [] => []
  | [x] => Json.serialize x
  | x :: y :: xs => Json.serialize x ++ ',' :: Json.serializeArr (y :: xs)

/-- Comma-separated serialization of object members. -/
def Json.serializeObj : List (String × Json) → List Char
  | [] => []
  | [(k, v)] => escString k ++ ':' :: Json.serialize v
  | (k, v) :: p :: fs => escString k ++ ':' :: Json.serialize v ++ ',' :: Json.serializeObj (p :: fs)

end

/-- The raw working copy of a decoded object: Go's
`map[string]json.RawMessage`, in textual member order. -/
abbrev RawMap := List (String × Json)

/-- Map lookup (first occurrence). -/
def RawMap.lookup : RawMap → String → Option Json
  | [], _ => none
  | (k', v) :: rest, k => if k' = k then some v else RawMap.lookup rest k

/-- Key presence test, the `_, found := rawMap[key]` idiom. -/
def RawMap.has (m : RawMap) (k : String) : Bool :=
  (RawMap.lookup m k).isSome

/-- Go's `delete(rawMap, key)`. -/
def RawMap.erase : RawMap → String → RawMap
  | [], _ => []
  | (k', v) :: rest, k =>
    if k' = k then RawMap.erase rest k else (k', v) :: RawMap.erase rest k

/-- Delete every listed known key from the working copy. -/
def RawMap.eraseKeys (m : RawMap) (ks : List String) : RawMap :=
  ks.foldl RawMap.erase m

/-- First required key that is not present, if any (the required-key loop
returns on the first missing key). -/
def firstMissing (req : List String) (m : RawMap) : Option String :=
  req.find? (fun k => !(RawMap.has m k))

/-- Go map insertion `m[k] = v`: replace an existing key in place, append a
fresh one. -/
def assocSet {α : Type} : List (String × α) → String → α → List (String × α)
  | [], k, v => [(k, v)]
  | (k', v') :: rest, k, v =>
    if k' = k then (k, v) :: rest else (k', v') :: assocSet rest k v

/-- The object the second `json.Unmarshal(data, &rawMap)` produces: the
members for an object payload, nil (empty) for anything else. -/
def Json.rawMap : Json → RawMap
  | .obj fs => fs
  | _ => []

/-- The `^x-` pattern (`regexX`): the key starts with the two characters
`x-`. -/
def matchesX (k : String) : Bool :=
  match k.data with
  | 'x' :: '-' :: _ => true
  | _ => false

/-- Route the still unconsumed keys through the `^x-` bucket loop: matching
keys are inserted into the bucket map, the rest remain as offending keys. -/
def routeX : RawMap → List (String × Json) → List (String × Json) × RawMap
  | [], bucket => (bucket, [])
  | (k, v) :: rest, bucket =>
    if matchesX k then routeX rest (assocSet bucket k v)
    else
      let r := routeX rest bucket
      (r.1, (k, v) :: r.2)

/-- Go's `%v` rendering of a `[]string`. -/
def goStrSlice (ks : List String) : String :=
  "[" ++ String.intercalate " " ks ++ "]"

/-- Byte-order comparison of keys (lexicographic on code points, as `fmt`
orders map keys). -/
def strLeChars : List Char → List Char → Bool
  | [], _ => true
  | _ :: _, [] => false
  | c :: cs, d :: ds =>
    if c.toNat < d.toNat then true
    else if d.toNat < c.toNat then false
    else strLeChars cs ds

/-- Key order used when rendering an error map. -/
def strLe (a b : String) : Bool := strLeChars a.data b.data

/-- Insert into a key-sorted list of (arm, message) pairs. -/
def insertByKey (p : String × String) : List (String × String) → List (String × String)
  | [] => [p]
  | q :: rest => if strLe p.1 q.1 then p :: q :: rest else q :: insertByKey p rest

/-- Sort (arm, message) pairs by arm name, as `fmt` sorts map keys. -/
def sortByKey (l : List (String × String)) : List (String × String) :=
  l.foldr insertByKey []

/-- Go's `%v` rendering of a `map[string]error` (keys sorted). -/
def goErrMap (l : List (String × String)) : String :=
  "map[" ++ String.intercalate " " ((sortByKey l).map (fun p => p.1 ++ ":" ++ p.2)) ++ "]"

/-- The `required key missing` message. -/
def requiredMsg (k : String) : String :=
  "required key missing: " ++ k

/-- The `additional properties not allowed` message of node `ty`. -/
def addPropsMsg (ty : String) (ks : List String) : String :=
  "additional properties not allowed in " ++ ty ++ ": " ++ goStrSlice ks

/-- The `oneOf constraint failed` message of node `ty`: the number of valid
results and each failed arm's own error. -/
def oneOfMsg (ty : String) (valid : Nat) (errs : List (String × String)) : String :=
  "oneOf constraint failed for " ++ ty ++ " with " ++ toString valid ++
    " valid results: " ++ goErrMap errs

/-- The `bad const value` message: `expected` is the raw expected literal,
`received` the raw bytes found in the payload. -/
def badConstMsg (key expected received : String) : String :=
  "bad const value for \"" ++ key ++ "\" (" ++ expected ++ " expected, " ++
    received ++ " received)"

/-- Abbreviated stand-in for `encoding/json`'s type-mismatch errors. -/
def jsonTypeErr (ty : String) : String :=
  "json: cannot unmarshal into Go value of type " ++ ty

/-- The serialized empty object. -/
def emptyObjChars : List Char := ['{', '}']

/-- The serialized `null`. -/
def nullChars : List Char := ['n', 'u', 'l', 'l']

/-- The loop body of `marshalUnion`: `result` is the accumulated bytes
(initially `['{']`), `isObject` the flag of the source.  Each fragment
arrives as the outcome of its own `json.Marshal` call. -/
def marshalUnionAux : List (Except String (List Char)) → List Char → Bool →
    Except String (List Char)
  | [], result, isObject =>
    if isObject ∧ result.length = 1 then .ok (result ++ ['}']) else .ok result
  | .error e :: _, _, _ => .error e
  | .ok j :: rest, result, isObject =>
    if j = emptyObjChars then marshalUnionAux rest result isObject
    else if j = nullChars then marshalUnionAux rest result isObject
    else if j.head? ≠ some '{' then
      if result.length = 1 ∧ (isObject ∨ result = j) then
        marshalUnionAux rest j false
      else
        .error ("failed to union map: object expected, " ++ String.mk j ++ " received")
    else if !isObject then
      .error ("failed to union " ++ String.mk result ++ " and " ++ String.mk j)
    else
      marshalUnionAux rest
        ((if result.length > 1 then result.dropLast ++ [','] else result) ++ j.tail)
        true

/-- Direct translation of `marshalUnion` (src/unnamed/part_000:8530): merge
the serialized fragments into one byte string. -/
def marshalUnion (maps : List (Except String (List Char))) : Except String (List Char) :=
  marshalUnionAux maps ['{'] true

/-- Accumulator state of the value-level union merge: empty, a scalar
result, or accumulated object members. -/
inductive UState where
  | empty : UState
  | scalarS : Json → UState
  | objS : List (String × Json) → UState

/-- One fragment step of the union merge on parsed values, mirroring the
byte-level loop: empty objects and nulls are skipped, object members are
appended, a scalar is adopted while the accumulator is the 1-byte-compatible
state the byte loop accepts, everything else is a union failure. -/
def unionStep (st : UState) (j : Json) : Except String UState :=
  match st, j with
  | st, .null => .ok st
  | st, .obj [] => .ok st
  | .empty, .obj fs => .ok (.objS fs)
  | .objS acc, .obj fs => .ok (.objS (acc ++ fs))
  | .scalarS t, .obj fs =>
    .error ("failed to union " ++ String.mk (Json.serialize t) ++ " and " ++
      String.mk (Json.serialize (.obj fs)))
  | .empty, j => .ok (.scalarS j)
  | .scalarS t, j =>
    if (Json.serialize t).length = 1 ∧ Json.serialize t = Json.serialize j then
      .ok (.scalarS t)
    else
      .error ("failed to union map: object expected, " ++
        String.mk (Json.serialize j) ++ " received")
  | .objS _, j =>
    .error ("failed to union map: object expected, " ++
      String.mk (Json.serialize j) ++ " received")

/-- Render the final merge state as a value (`{}` when nothing was merged). -/
def UState.render : UState → Json
  | .empty => .obj []
  | .scalarS j => j
  | .objS fs => .obj fs

/-- Fold the union merge over the fragment outcomes. -/
def unionJsonAux : List (Except String Json) → UState → Except String Json
  | [], st => .ok st.render
  | .error e :: _, _ => .error e
  | .ok j :: rest, st =>
    match unionStep st j with
    | .ok st' => unionJsonAux rest st'
    | .error e => .error e

/-- `marshalUnion` on parsed fragment values: used wherever Go embeds a
node's `MarshalJSON` output inside an enclosing document. -/
def unionJson (frags : List (Except String Json)) : Except String Json :=
  unionJsonAux frags .empty

/-- Decode a JSON value into a plain `string` field: `null` is a no-op that
keeps the previous value. -/
def decStrV (prev : String) : Json → Except String String
  | .null => .ok prev
  | .str s => .ok s
  | _ => .error (jsonTypeErr "string")

/-- Decode a struct field of type `string`: an absent key keeps the
receiver's previous value. -/
def decStrF (prev : String) (m : RawMap) (k : String) : Except String String :=
  match RawMap.lookup m k with
  | none => .ok prev
  | some v => decStrV prev v

/-- Decode a struct field of type `*string`. -/
def decOptStrF (prev : Option String) (m : RawMap) (k : String) :
    Except String (Option String) :=
  match RawMap.lookup m k with
  | none => .ok prev
  | some .null => .ok none
  | some (.str s) => .ok (some s)
  | some _ => .error (jsonTypeErr "string")

/-- Decode a struct field of type `*bool`. -/
def decOptBoolF (prev : Option Bool) (m : RawMap) (k : String) :
    Except String (Option Bool) :=
  match RawMap.lookup m k with
  | none => .ok prev
  | some .null => .ok none
  | some (.bool b) => .ok (some b)
  | some _ => .error (jsonTypeErr "bool")

/-- Decode a struct field of numeric type (`*int64` / `*float64`; numbers
are modelled as integers). -/
def decOptIntF (prev : Option Int) (m : RawMap) (k : String) :
    Except String (Option Int) :=
  match RawMap.lookup m k with
  | none => .ok prev
  | some .null => .ok none
  | some (.num n) => .ok (some n)
  | some _ => .error (jsonTypeErr "number")

/-- Decode a struct field of type `*interface{}` (the tri-state fields):
`null` sets the pointer to nil, any other value is stored. -/
def decOptJsonF (prev : Option Json) (m : RawMap) (k : String) :
    Except String (Option Json) :=
  match RawMap.lookup m k with
  | none => .ok prev
  | some .null => .ok none
  | some v => .ok (some v)

/-- Decode a struct field of type plain `interface{}`. -/
def decJsonF (prev : Json) (m : RawMap) (k : String) : Except String Json :=
  match RawMap.lookup m k with
  | none => .ok prev
  | some v => .ok v

/-- Decode a struct field holding a pointer to a node with its own
`UnmarshalJSON`: `null` sets the pointer to nil; otherwise the existing
value (or a fresh zero value) is the receiver of the nested decode. -/
def decPtrF {α : Type} (zero : α) (dec : α → Json → Except String α)
    (prev : Option α) (m : RawMap) (k : String) : Except String (Option α) :=
  match RawMap.lookup m k with
  | none => .ok prev
  | some .null => .ok none
  | some v => (dec (prev.getD zero) v).map some

/-- Decode a struct field of type `[]string`. -/
def decStrListF (prev : List String) (m : RawMap) (k : String) :
    Except String (List String) :=
  match RawMap.lookup m k with
  | none => .ok prev
  | some .null => .ok []
  | some (.arr xs) =>
    xs.mapM (fun v =>
      match v with
      | Json.str s => Except.ok s
      | _ => Except.error (jsonTypeErr "string"))
  | some _ => .error (jsonTypeErr "[]string")

/-- Decode a struct field of type `[]interface{}`. -/
def decJsonListF (prev : List Json) (m : RawMap) (k : String) :
    Except String (List Json) :=
  match RawMap.lookup m k with
  | none => .ok prev
  | some .null => .ok []
  | some (.arr xs) => .ok xs
  | some _ => .error (jsonTypeErr "[]interface")

/-- Validate a decoded enum string against the enumeration, as the generated
`switch` of each enum's `UnmarshalJSON` does. -/
def enumCheck (valid : List String) (name s : String) : Except String String :=
  if valid.contains s then .ok s
  else .error ("unexpected " ++ name ++ " value: " ++ s)

/-- An enum type's `UnmarshalJSON`: decode a string (a JSON `null` leaves
the local `ii` at its zero value `""`), then validate. -/
def enumDec (valid : List String) (name : String) : Json → Except String String
  | .null => enumCheck valid name ""
  | .str s => enumCheck valid name s
  | _ => .error (jsonTypeErr "string")

/-- An enum type's `MarshalJSON`: reject values outside the enumeration. -/
def enumMarshal (valid : List String) (name s : String) : Except String Json :=
  if valid.contains s then .ok (.str s)
  else .error ("unexpected " ++ name ++ " value: " ++ s)

/-- Decode a plain enum-typed struct field. -/
def decEnumF (valid : List String) (name : String) (prev : String)
    (m : RawMap) (k : String) : Except String String :=
  match RawMap.lookup m k with
  | none => .ok prev
  | some v => enumDec valid name v

/-- Decode a pointer-to-enum struct field. -/
def decOptEnumF (valid : List String) (name : String) (prev : Option String)
    (m : RawMap) (k : String) : Except String (Option String) :=
  match RawMap.lookup m k with
  | none => .ok prev
  | some .null => .ok none
  | some v => (enumDec valid name v).map some

/-- `ParameterIn` enum values. -/
abbrev ParameterIn := String

/-- The `ParameterIn` enumeration (path, query, header, cookie). -/
def parameterInValues : List String := ["path", "query", "header", "cookie"]

/-- `SchemaType` enum values. -/
abbrev SchemaType := String

/-- The `SchemaType` enumeration. -/
def schemaTypeValues : List String :=
  ["array", "boolean", "integer", "number", "object", "string"]

/-- `EncodingStyle` enum values. -/
abbrev EncodingStyle := String

/-- The `EncodingStyle` enumeration. -/
def encodingStyleValues : List String :=
  ["form", "spaceDelimited", "pipeDelimited", "deepObject"]

/-- `PathParameterStyle` enum values. -/
abbrev PathParameterStyle := String

/-- The `PathParameterStyle` enumeration. -/
def pathParameterStyleValues : List String := ["matrix", "label", "simple"]

/-- `QueryParameterStyle` enum values. -/
abbrev QueryParameterStyle := String

/-- The `QueryParameterStyle` enumeration. -/
def queryParameterStyleValues : List String :=
  ["form", "spaceDelimited", "pipeDelimited", "deepObject"]

/-- A struct-marshal member for an always-emitted field. -/
def fld (k : String) (v : Json) : List (String × Json) := [(k, v)]

/-- A struct-marshal member for an `omitempty` `*string` field. -/
def optStrFld (k : String) : Option String → List (String × Json)
  | none => []
  | some s => [(k, .str s)]

/-- A struct-marshal member for an `omitempty` `*bool` field. -/
def optBoolFld (k : String) : Option Bool → List (String × Json)
  | none => []
  | some b => [(k, .bool b)]

/-- A struct-marshal member for an `omitempty` numeric pointer field. -/
def optIntFld (k : String) : Option Int → List (String × Json)
  | none => []
  | some n => [(k, .num n)]

/-- A struct-marshal member for an `omitempty` `*interface{}` field (a
present-null pointer is emitted as a `null` member). -/
def optJsonFld (k : String) : Option Json → List (String × Json)
  | none => []
  | some v => [(k, v)]

/-- A struct-marshal member for an `omitempty` field marshalled by a nested
fallible `MarshalJSON`. -/
def optSubFld (k : String) : Option (Except String Json) →
    Except String (List (String × Json))
  | none => .ok []
  | some (.error e) => .error e
  | some (.ok v) => .ok [(k, v)]

/-- A `map[string]…` bucket fragment for `marshalUnion`: a nil/empty map
marshals to `null`/`{}` (both are skipped by the merge). -/
def mapFrag (m : List (String × Json)) : Json :=
  if m.isEmpty then .null else .obj m

/-- Contact structure (`#/definitions/Contact`). -/
structure Contact where
  Name : Option String
  URL : Option String
  Email : Option String
  MapOfAnything : List (String × Json)

/-- The zero `Contact`. -/
def Contact.zero : Contact := ⟨none, none, none, []⟩

/-- Known keys of `Contact`. -/
def knownKeysContact : List String := ["name", "url", "email"]

/-- The `json.Unmarshal(data, &mc)` structural step for `Contact`. -/
def Contact.structDec (prev : Contact) : Json → Except String Contact
  | .null => .ok prev
  | .obj fs => do
    let name ← decOptStrF prev.Name fs "name"
    let url ← decOptStrF prev.URL fs "url"
    let email ← decOptStrF prev.Email fs "email"
    .ok { prev with Name := name, URL := url,
                    Email := email }
  | _ => .error (jsonTypeErr "Contact")

/-- `Contact.UnmarshalJSON`: structural decode, drop known keys, route `^x-`
keys to the bucket, reject the rest. -/
def Contact.unmarshalJSON (prev : Contact) (data : Json) : Except String Contact := do
  let mc ← Contact.structDec prev data
  let rawMap := (Json.rawMap data).eraseKeys knownKeysContact
  let r := routeX rawMap mc.MapOfAnything
  if r.2.isEmpty then .ok { mc with MapOfAnything := r.1 }
  else .error (addPropsMsg "Contact" (r.2.map Prod.fst))

/-- The `marshalContact` struct fragment. -/
def Contact.structJson (c : Contact) : Json :=
  .obj (optStrFld "name" c.Name ++ optStrFld "url" c.URL ++ optStrFld "email" c.Email)

/-- `Contact.MarshalJSON` on parsed values (used when a `Contact` is
embedded in an enclosing document). -/
def Contact.marshalJSONj (c : Contact) : Except String Json :=
  unionJson [.ok (Contact.structJson c), .ok (mapFrag c.MapOfAnything)]

/-- `Contact.MarshalJSON`: `marshalUnion(marshalContact(c), c.MapOfAnything)`. -/
def Contact.marshalJSON (c : Contact) : Except String (List Char) :=
  marshalUnion [.ok (Json.serialize (Contact.structJson c)),
    .ok (Json.serialize (mapFrag c.MapOfAnything))]

/-- License structure (`#/definitions/License`). -/
structure License where
  Name : String
  URL : Option String
  MapOfAnything : List (String × Json)

/-- The zero `License`. -/
def License.zero : License := ⟨"", none, []⟩

/-- Known keys of `License`. -/
def knownKeysLicense : List String := ["name", "url"]

/-- Required keys of `License`. -/
def requireKeysLicense : List String := ["name"]

/-- The structural step for `License`. -/
def License.structDec (prev : License) : Json → Except String License
  | .null => .ok prev
  | .obj fs => do
    let name ← decStrF prev.Name fs "name"
    let url ← decOptStrF prev.URL fs "url"
    .ok { prev with Name := name, URL := url }
  | _ => .error (jsonTypeErr "License")

/-- `License.UnmarshalJSON`. -/
def License.unmarshalJSON (prev : License) (data : Json) : Except String License := do
  let ml ← License.structDec prev data
  let rawMap := Json.rawMap data
  match firstMissing requireKeysLicense rawMap with
  | some k => .error (requiredMsg k)
  | none =>
    let rawMap := rawMap.eraseKeys knownKeysLicense
    let r := routeX rawMap ml.MapOfAnything
    if r.2.isEmpty then .ok { ml with MapOfAnything := r.1 }
    else .error (addPropsMsg "License" (r.2.map Prod.fst))

/-- The `marshalLicense` struct fragment. -/
def License.structJson (l : License) : Json :=
  .obj (fld "name" (.str l.Name) ++ optStrFld "url" l.URL)

/-- `License.MarshalJSON` on parsed values. -/
def License.marshalJSONj (l : License) : Except String Json :=
  unionJson [.ok (License.structJson l), .ok (mapFrag l.MapOfAnything)]

/-- `License.MarshalJSON`. -/
def License.marshalJSON (l : License) : Except String (List Char) :=
  marshalUnion [.ok (Json.serialize (License.structJson l)),
    .ok (Json.serialize (mapFrag l.MapOfAnything))]

/-- Info structure (`#/definitions/Info`). -/
structure Info where
  Title : String
  Description : Option String
  TermsOfService : Option String
  Contact : Option Contact
  License : Option License
  Version : String
  MapOfAnything : List (String × Json)

/-- The zero `Info`. -/
def Info.zero : Info := ⟨"", none, none, none, none, "", []⟩

/-- Known keys of `Info`. -/
def knownKeysInfo : List String :=
  ["title", "description", "termsOfService", "contact", "license", "version"]

/-- Required keys of `Info`. -/
def requireKeysInfo : List String := ["title", "version"]

/-- The structural step for `Info` (nested `Contact`/`License` decode through
their own `UnmarshalJSON`). -/
def Info.structDec (prev : Info) : Json → Except String Info
  | .null => .ok prev
  | .obj fs => do
    let title ← decStrF prev.Title fs "title"
    let description ← decOptStrF prev.Description fs "description"
    let tos ← decOptStrF prev.TermsOfService fs "termsOfService"
    let contact ← decPtrF Contact.zero Contact.unmarshalJSON prev.Contact fs "contact"
    let license ← decPtrF License.zero License.unmarshalJSON prev.License fs "license"
    let version ← decStrF prev.Version fs "version"
    .ok { prev with Title := title, Description := description,
                    TermsOfService := tos, Contact := contact, License := license,
                    Version := version }
  | _ => .error (jsonTypeErr "Info")

/-- `Info.UnmarshalJSON`. -/
def Info.unmarshalJSON (prev : Info) (data : Json) : Except String Info := do
  let mi ← Info.structDec prev data
  let rawMap := Json.rawMap data
  match firstMissing requireKeysInfo rawMap with
  | some k => .error (requiredMsg k)
  | none =>
    let rawMap := rawMap.eraseKeys knownKeysInfo
    let r := routeX rawMap mi.MapOfAnything
    if r.2.isEmpty then .ok { mi with MapOfAnything := r.1 }
    else .error (addPropsMsg "Info" (r.2.map Prod.fst))

/-- The `marshalInfo` struct fragment (nested nodes embedded through their
own `MarshalJSON`). -/
def Info.structJson (i : Info) : Except String Json := do
  let contact ← optSubFld "contact" (i.Contact.map Contact.marshalJSONj)
  let license ← optSubFld "license" (i.License.map License.marshalJSONj)
  .ok (.obj (fld "title" (.str i.Title) ++ optStrFld "description" i.Description ++
    optStrFld "termsOfService" i.TermsOfService ++ contact ++ license ++
    fld "version" (.str i.Version)))

/-- `Info.MarshalJSON`. -/
def Info.marshalJSON (i : Info) : Except String (List Char) :=
  marshalUnion [(Info.structJson i).map Json.serialize,
    .ok (Json.serialize (mapFrag i.MapOfAnything))]

/-- ExternalDocumentation structure (`#/definitions/ExternalDocumentation`). -/
structure ExternalDocumentation where
  Description : Option String
  URL : String
  MapOfAnything : List (String × Json)

/-- The zero `ExternalDocumentation`. -/
def ExternalDocumentation.zero : ExternalDocumentation := ⟨none, "", []⟩

/-- Known keys of `ExternalDocumentation`. -/
def knownKeysExternalDocumentation : List String := ["description", "url"]

/-- Required keys of `ExternalDocumentation`. -/
def requireKeysExternalDocumentation : List String := ["url"]

/-- The structural step for `ExternalDocumentation`. -/
def ExternalDocumentation.structDec (prev : ExternalDocumentation) :
    Json → Except String ExternalDocumentation
  | .null => .ok prev
  | .obj fs => do
    let description ← decOptStrF prev.Description fs "description"
    let url ← decStrF prev.URL fs "url"
    .ok { prev with Description := description, URL := url }
  | _ => .error (jsonTypeErr "ExternalDocumentation")

/-- `ExternalDocumentation.UnmarshalJSON`. -/
def ExternalDocumentation.unmarshalJSON (prev : ExternalDocumentation)
    (data : Json) : Except String ExternalDocumentation := do
  let me ← ExternalDocumentation.structDec prev data
  let rawMap := Json.rawMap data
  match firstMissing requireKeysExternalDocumentation rawMap with
  | some k => .error (requiredMsg k)
  | none =>
    let rawMap := rawMap.eraseKeys knownKeysExternalDocumentation
    let r := routeX rawMap me.MapOfAnything
    if r.2.isEmpty then .ok { me with MapOfAnything := r.1 }
    else .error (addPropsMsg "ExternalDocumentation" (r.2.map Prod.fst))

/-- The `marshalExternalDocumentation` struct fragment. -/
def ExternalDocumentation.structJson (e : ExternalDocumentation) : Json :=
  .obj (optStrFld "description" e.Description ++ fld "url" (.str e.URL))

/-- `ExternalDocumentation.MarshalJSON` on parsed values. -/
def ExternalDocumentation.marshalJSONj (e : ExternalDocumentation) :
    Except String Json :=
  unionJson [.ok (ExternalDocumentation.structJson e), .ok (mapFrag e.MapOfAnything)]

/-- XML structure (`#/definitions/XML`). -/
structure XML where
  Name : Option String
  Namespace : Option String
  Prefix : Option String
  Attribute : Option Bool
  Wrapped : Option Bool
  MapOfAnything : List (String × Json)

/-- The zero `XML`. -/
def XML.zero : XML := ⟨none, none, none, none, none, []⟩

/-- Known keys of `XML`. -/
def knownKeysXML : List String :=
  ["name", "namespace", "prefix", "attribute", "wrapped"]

/-- The structural step for `XML`. -/
def XML.structDec (prev : XML) : Json → Except String XML
  | .null => .ok prev
  | .obj fs => do
    let name ← decOptStrF prev.Name fs "name"
    let ns ← decOptStrF prev.Namespace fs "namespace"
    let prefixv ← decOptStrF prev.Prefix fs "prefix"
    let attr ← decOptBoolF prev.Attribute fs "attribute"
    let wrapped ← decOptBoolF prev.Wrapped fs "wrapped"
    .ok { prev with Name := name, Namespace := ns, Prefix := prefixv,
                    Attribute := attr, Wrapped := wrapped }
  | _ => .error (jsonTypeErr "XML")

/-- `XML.UnmarshalJSON` (no required keys). -/
def XML.unmarshalJSON (prev : XML) (data : Json) : Except String XML := do
  let mx ← XML.structDec prev data
  let rawMap := (Json.rawMap data).eraseKeys knownKeysXML
  let r := routeX rawMap mx.MapOfAnything
  if r.2.isEmpty then .ok { mx with MapOfAnything := r.1 }
  else .error (addPropsMsg "XML" (r.2.map Prod.fst))

/-- The `marshalXML` struct fragment. -/
def XML.structJson (x : XML) : Json :=
  .obj (optStrFld "name" x.Name ++ optStrFld "namespace" x.Namespace ++
    optStrFld "prefix" x.Prefix ++ optBoolFld "attribute" x.Attribute ++
    optBoolFld "wrapped" x.Wrapped)

/-- `XML.MarshalJSON` on parsed values. -/
def XML.marshalJSONj (x : XML) : Except String Json :=
  unionJson [.ok (XML.structJson x), .ok (mapFrag x.MapOfAnything)]

/-- Discriminator structure (`#/definitions/Discriminator`). -/
structure Discriminator where
  PropertyName : String
  Mapping : List (String × String)

/-- The zero `Discriminator`. -/
def Discriminator.zero : Discriminator := ⟨"", []⟩

/-- Required keys of `Discriminator`. -/
def requireKeysDiscriminator : List String := ["propertyName"]

/-- Decode a `map[string]string` struct field. -/
def decStrMapF (prev : List (String × String)) (m : RawMap) (k : String) :
    Except String (List (String × String)) :=
  match RawMap.lookup m k with
  | none => .ok prev
  | some .null => .ok []
  | some (.obj fs) =>
    fs.foldlM (fun acc kv =>
      match kv.2 with
      | Json.str s => Except.ok (assocSet acc kv.1 s)
      | Json.null => Except.ok (assocSet acc kv.1 "")
      | _ => Except.error (jsonTypeErr "string")) prev
  | some _ => .error (jsonTypeErr "map")

/-- The structural step for `Discriminator`. -/
def Discriminator.structDec (prev : Discriminator) :
    Json → Except String Discriminator
  | .null => .ok prev
  | .obj fs => do
    let pn ← decStrF prev.PropertyName fs "propertyName"
    let mapping ← decStrMapF prev.Mapping fs "mapping"
    .ok { prev with PropertyName := pn, Mapping := mapping }
  | _ => .error (jsonTypeErr "Discriminator")

/-- `Discriminator.UnmarshalJSON` (required key check only; no bucket and no
unknown-key check). -/
def Discriminator.unmarshalJSON (prev : Discriminator) (data : Json) :
    Except String Discriminator := do
  let md ← Discriminator.structDec prev data
  let rawMap := Json.rawMap data
  match firstMissing requireKeysDiscriminator rawMap with
  | some k => .error (requiredMsg k)
  | none => .ok md

/-- The default (struct-tag) marshalling of `Discriminator`. -/
def Discriminator.structJson (d : Discriminator) : Json :=
  .obj (fld "propertyName" (.str d.PropertyName) ++
    (if d.Mapping.isEmpty then []
     else [("mapping", Json.obj (d.Mapping.map (fun p => (p.1, Json.str p.2))))]))

/-- SchemaReference structure (`#/definitions/SchemaReference`). -/
structure SchemaReference where
  Ref : String

/-- The zero `SchemaReference`. -/
def SchemaReference.zero : SchemaReference := ⟨""⟩

/-- Known keys of `SchemaReference`. -/
def knownKeysSchemaReference : List String := ["$ref"]

/-- Required keys of `SchemaReference`. -/
def requireKeysSchemaReference : List String := ["$ref"]

/-- The structural step for `SchemaReference`. -/
def SchemaReference.structDec (prev : SchemaReference) :
    Json → Except String SchemaReference
  | .null => .ok prev
  | .obj fs => do
    let ref ← decStrF prev.Ref fs "$ref"
    .ok { prev with Ref := ref }
  | _ => .error (jsonTypeErr "SchemaReference")

/-- `SchemaReference.UnmarshalJSON`: required `$ref`, no other key allowed. -/
def SchemaReference.unmarshalJSON (prev : SchemaReference) (data : Json) :
    Except String SchemaReference := do
  let ms ← SchemaReference.structDec prev data
  let rawMap := Json.rawMap data
  match firstMissing requireKeysSchemaReference rawMap with
  | some k => .error (requiredMsg k)
  | none =>
    let rest := rawMap.eraseKeys knownKeysSchemaReference
    if rest.isEmpty then .ok ms
    else .error (addPropsMsg "SchemaReference" (rest.map Prod.fst))

/-- The default marshalling of `SchemaReference`. -/
def SchemaReference.structJson (s : SchemaReference) : Json :=
  .obj (fld "$ref" (.str s.Ref))

/-- ExampleReference structure (`#/definitions/ExampleReference`). -/
structure ExampleReference where
  Ref : String

/-- The zero `ExampleReference`. -/
def ExampleReference.zero : ExampleReference := ⟨""⟩

/-- `ExampleReference.UnmarshalJSON` (same shape as `SchemaReference`). -/
def ExampleReference.unmarshalJSON (prev : ExampleReference) (data : Json) :
    Except String ExampleReference := do
  let me ←
    (match data with
     | .null => .ok prev
     | .obj fs => do
       let ref ← decStrF prev.Ref fs "$ref"
       Except.ok { prev with Ref := ref }
     | _ => .error (jsonTypeErr "ExampleReference"))
  let rawMap := Json.rawMap data
  match firstMissing ["$ref"] rawMap with
  | some k => .error (requiredMsg k)
  | none =>
    let rest := rawMap.eraseKeys ["$ref"]
    if rest.isEmpty then .ok me
    else .error (addPropsMsg "ExampleReference" (rest.map Prod.fst))

/-- The default marshalling of `ExampleReference`. -/
def ExampleReference.structJson (e : ExampleReference) : Json :=
  .obj (fld "$ref" (.str e.Ref))

/-- Example structure (`#/definitions/Example`); `Value` is a tri-state
`*interface{}` field. -/
structure Example where
  Summary : Option String
  Description : Option String
  Value : Option Json
  ExternalValue : Option String
  MapOfAnything : List (String × Json)

/-- The zero `Example`. -/
def Example.zero : Example := ⟨none, none, none, none, []⟩

/-- Known keys of `Example`. -/
def knownKeysExample : List String :=
  ["summary", "description", "value", "externalValue"]

/-- The structural step for `Example`. -/
def Example.structDec (prev : Example) : Json → Except String Example
  | .null => .ok prev
  | .obj fs => do
    let summary ← decOptStrF prev.Summary fs "summary"
    let description ← decOptStrF prev.Description fs "description"
    let value ← decOptJsonF prev.Value fs "value"
    let ev ← decOptStrF prev.ExternalValue fs "externalValue"
    .ok { prev with Summary := summary, Description := description,
                    Value := value, ExternalValue := ev }
  | _ => .error (jsonTypeErr "Example")

/-- `Example.UnmarshalJSON`, including the present-null recovery for the
`value` key. -/
def Example.unmarshalJSON (prev : Example) (data : Json) : Except String Example := do
  let me ← Example.structDec prev data
  let rawMap := Json.rawMap data
  let me :=
    if me.Value.isNone ∧ (rawMap.has "value") = true then
      { me with Value := some Json.null }
    else me
  let rawMap := rawMap.eraseKeys knownKeysExample
  let r := routeX rawMap me.MapOfAnything
  if r.2.isEmpty then .ok { me with MapOfAnything := r.1 }
  else .error (addPropsMsg "Example" (r.2.map Prod.fst))

/-- The `marshalExample` struct fragment. -/
def Example.structJson (e : Example) : Json :=
  .obj (optStrFld "summary" e.Summary ++ optStrFld "description" e.Description ++
    optJsonFld "value" e.Value ++ optStrFld "externalValue" e.ExternalValue)

/-- `Example.MarshalJSON` on parsed values. -/
def Example.marshalJSONj (e : Example) : Except String Json :=
  unionJson [.ok (Example.structJson e), .ok (mapFrag e.MapOfAnything)]

/-- ExampleOrRef union (`#/definitions/ExampleOrRef`). -/
structure ExampleOrRef where
  ExampleReference : Option ExampleReference
  Example : Option Example

/-- The zero `ExampleOrRef`. -/
def ExampleOrRef.zero : ExampleOrRef := ⟨none, none⟩

/-- The `json.Unmarshal(data, &e.Arm)` step of a oneOf arm: a JSON `null`
sets the arm pointer to nil and counts as a valid result; otherwise the
existing arm value (or a zero value) receives the nested decode. -/
def decArm {α : Type} (zero : α) (dec : α → Json → Except String α)
    (prev : Option α) (data : Json) : Except String (Option α) :=
  match data with
  | .null => .ok none
  | _ => (dec (prev.getD zero) data).map some

/-- `ExampleOrRef.UnmarshalJSON`: try both arms, require exactly one valid
result. -/
def ExampleOrRef.unmarshalJSON (prev : ExampleOrRef) (data : Json) :
    Except String ExampleOrRef :=
  let r1 := decArm ExampleReference.zero ExampleReference.unmarshalJSON
    prev.ExampleReference data
  let r2 := decArm Example.zero Example.unmarshalJSON prev.Example data
  let errs := (match r1 with
    | .error e => [("ExampleReference", e)]
    | .ok _ => []) ++ (match r2 with
    | .error e => [("Example", e)]
    | .ok _ => [])
  let valid := (match r1 with | .ok _ => 1 | .error _ => 0) +
    (match r2 with | .ok _ => 1 | .error _ => 0)
  if valid = 1 then
    .ok ⟨r1.toOption.getD none, r2.toOption.getD none⟩
  else
    .error (oneOfMsg "ExampleOrRef" valid errs)

/-- A nil arm pointer marshals to `null` (skipped by the union merge). -/
def armFrag : Option (Except String Json) → Except String Json
  | none => .ok .null
  | some r => r

/-- `ExampleOrRef.MarshalJSON` on parsed values. -/
def ExampleOrRef.marshalJSONj (e : ExampleOrRef) : Except String Json :=
  unionJson [armFrag (e.ExampleReference.map (fun r => .ok (ExampleReference.structJson r))),
    armFrag (e.Example.map Example.marshalJSONj)]

/-- A struct-marshal member for an `omitempty` enum pointer field. -/
def optEnumFld (valid : List String) (name k : String) :
    Option String → Except String (List (String × Json))
  | none => .ok []
  | some s => (enumMarshal valid name s).map (fun j => [(k, j)])

/-- HasSchema structure (`#/definitions/SchemaXORContent/oneOf/0`): the
required `schema` key with an arbitrary value. -/
structure HasSchema where
  Schema : Json

/-- The zero `HasSchema`. -/
def HasSchema.zero : HasSchema := ⟨.null⟩

/-- `HasSchema.UnmarshalJSON`: structural decode plus the required-key
check; extra keys are allowed. -/
def HasSchema.unmarshalJSON (prev : HasSchema) (data : Json) :
    Except String HasSchema := do
  let mh ←
    (match data with
     | .null => .ok prev
     | .obj fs => do
       let schema ← decJsonF prev.Schema fs "schema"
       Except.ok (HasSchema.mk schema)
     | _ => .error (jsonTypeErr "HasSchema"))
  match firstMissing ["schema"] (Json.rawMap data) with
  | some k => .error (requiredMsg k)
  | none => .ok mh

/-- The default marshalling of `HasSchema` (the `schema` key is always
emitted). -/
def HasSchema.structJson (h : HasSchema) : Json :=
  .obj (fld "schema" h.Schema)

/-- HasContent structure (`#/definitions/SchemaXORContent/oneOf/1`). -/
structure HasContent where
  Content : Json

/-- The zero `HasContent`. -/
def HasContent.zero : HasContent := ⟨.null⟩

/-- `HasContent.UnmarshalJSON`. -/
def HasContent.unmarshalJSON (prev : HasContent) (data : Json) :
    Except String HasContent := do
  let mh ←
    (match data with
     | .null => .ok prev
     | .obj fs => do
       let content ← decJsonF prev.Content fs "content"
       Except.ok (HasContent.mk content)
     | _ => .error (jsonTypeErr "HasContent"))
  match firstMissing ["content"] (Json.rawMap data) with
  | some k => .error (requiredMsg k)
  | none => .ok mh

/-- The default marshalling of `HasContent`. -/
def HasContent.structJson (h : HasContent) : Json :=
  .obj (fld "content" h.Content)

/-- SchemaXORContentNot structure (`#/definitions/SchemaXORContent->not`):
both `schema` and `content` must be present. -/
structure SchemaXORContentNot where
  Schema : Json
  Content : Json

/-- The zero `SchemaXORContentNot`. -/
def SchemaXORContentNot.zero : SchemaXORContentNot := ⟨.null, .null⟩

/-- Required keys of `SchemaXORContentNot`. -/
def requireKeysSchemaXORContentNot : List String := ["schema", "content"]

/-- `SchemaXORContentNot.UnmarshalJSON`: structural decode plus the two
required keys; extra keys are allowed. -/
def SchemaXORContentNot.unmarshalJSON (prev : SchemaXORContentNot)
    (data : Json) : Except String SchemaXORContentNot := do
  let ms ←
    (match data with
     | .null => .ok prev
     | .obj fs => do
       let schema ← decJsonF prev.Schema fs "schema"
       let content ← decJsonF prev.Content fs "content"
       Except.ok (SchemaXORContentNot.mk schema content)
     | _ => .error (jsonTypeErr "SchemaXORContentNot"))
  match firstMissing requireKeysSchemaXORContentNot (Json.rawMap data) with
  | some k => .error (requiredMsg k)
  | none => .ok ms

/-- SchemaXORContent union (`#/definitions/SchemaXORContent`): schema and
content are mutually exclusive, at least one is required. -/
structure SchemaXORContent where
  HasSchema : Option HasSchema
  HasContent : Option HasContent

/-- The zero `SchemaXORContent`. -/
def SchemaXORContent.zero : SchemaXORContent := ⟨none, none⟩

/-- `SchemaXORContent.UnmarshalJSON`: the `not` shape must fail, then
exactly one of the two arms must accept. -/
def SchemaXORContent.unmarshalJSON (prev : SchemaXORContent) (data : Json) :
    Except String SchemaXORContent :=
  match SchemaXORContentNot.unmarshalJSON SchemaXORContentNot.zero data with
  | .ok _ => .error "not constraint failed for SchemaXORContent"
  | .error _ =>
    let r1 := decArm HasSchema.zero HasSchema.unmarshalJSON prev.HasSchema data
    let r2 := decArm HasContent.zero HasContent.unmarshalJSON prev.HasContent data
    let errs := (match r1 with
      | .error e => [("HasSchema", e)]
      | .ok _ => []) ++ (match r2 with
      | .error e => [("HasContent", e)]
      | .ok _ => [])
    let valid := (match r1 with | .ok _ => 1 | .error _ => 0) +
      (match r2 with | .ok _ => 1 | .error _ => 0)
    if valid = 1 then
      .ok ⟨r1.toOption.getD none, r2.toOption.getD none⟩
    else
      .error (oneOfMsg "SchemaXORContent" valid errs)

/-- `SchemaXORContent.MarshalJSON` on parsed values. -/
def SchemaXORContent.marshalJSONj (s : SchemaXORContent) : Except String Json :=
  unionJson [armFrag (s.HasSchema.map (fun h => .ok (HasSchema.structJson h))),
    armFrag (s.HasContent.map (fun h => .ok (HasContent.structJson h)))]

/-- PathParameter structure (`#/definitions/ParameterLocation/oneOf/0`). -/
structure PathParameter where
  Style : Option PathParameterStyle

/-- The zero `PathParameter`. -/
def PathParameter.zero : PathParameter := ⟨none⟩

/-- Required keys of `PathParameter`. -/
def requireKeysPathParameter : List String := ["required"]

/-- `PathParameter.UnmarshalJSON`: structural decode, the required
`required` key, then the `in`/`required` constant checks (raw-byte
comparison against the fixed literals). -/
def PathParameter.unmarshalJSON (prev : PathParameter) (data : Json) :
    Except String PathParameter := do
  let mp ←
    (match data with
     | .null => .ok prev
     | .obj fs => (decOptEnumF pathParameterStyleValues "PathParameterStyle"
         prev.Style fs "style").map PathParameter.mk
     | _ => .error (jsonTypeErr "PathParameter"))
  let rawMap := Json.rawMap data
  match firstMissing requireKeysPathParameter rawMap with
  | some k => .error (requiredMsg k)
  | none =>
    match RawMap.lookup rawMap "in" with
    | some v =>
      if Json.serialize v ≠ "\"path\"".data then
        .error (badConstMsg "in" "\"path\"" (String.mk (Json.serialize v)))
      else
        pathParamRequiredConst mp rawMap
    | none => pathParamRequiredConst mp rawMap
where
  /-- The `required` constant check that follows the `in` check. -/
  pathParamRequiredConst (mp : PathParameter) (rawMap : RawMap) :
      Except String PathParameter :=
    match RawMap.lookup rawMap "required" with
    | some v =>
      if Json.serialize v ≠ "true".data then
        .error (badConstMsg "required" "true" (String.mk (Json.serialize v)))
      else .ok mp
    | none => .ok mp

/-- The fixed fragment `constPathParameter` that encoding always emits. -/
def constPathParameter : Json :=
  .obj [("in", .str "path"), ("required", .bool true)]

/-- The `marshalPathParameter` struct fragment. -/
def PathParameter.structJson (p : PathParameter) : Except String Json :=
  (optEnumFld pathParameterStyleValues "PathParameterStyle" "style" p.Style).map .obj

/-- `PathParameter.MarshalJSON`:
`marshalUnion(constPathParameter, marshalPathParameter(p))`. -/
def PathParameter.marshalJSON (p : PathParameter) : Except String (List Char) :=
  marshalUnion [.ok (Json.serialize constPathParameter),
    (PathParameter.structJson p).map Json.serialize]

/-- `PathParameter.MarshalJSON` on parsed values. -/
def PathParameter.marshalJSONj (p : PathParameter) : Except String Json :=
  unionJson [.ok constPathParameter, PathParameter.structJson p]

/-- QueryParameter structure (`#/definitions/ParameterLocation/oneOf/1`). -/
structure QueryParameter where
  Style : Option QueryParameterStyle

/-- The zero `QueryParameter`. -/
def QueryParameter.zero : QueryParameter := ⟨none⟩

/-- `QueryParameter.UnmarshalJSON`: structural decode plus the `in`
constant check (no required keys). -/
def QueryParameter.unmarshalJSON (prev : QueryParameter) (data : Json) :
    Except String QueryParameter := do
  let mq ←
    (match data with
     | .null => .ok prev
     | .obj fs => (decOptEnumF queryParameterStyleValues "QueryParameterStyle"
         prev.Style fs "style").map QueryParameter.mk
     | _ => .error (jsonTypeErr "QueryParameter"))
  match RawMap.lookup (Json.rawMap data) "in" with
  | some v =>
    if Json.serialize v ≠ "\"query\"".data then
      .error (badConstMsg "in" "\"query\"" (String.mk (Json.serialize v)))
    else .ok mq
  | none => .ok mq

/-- The fixed fragment `constQueryParameter`. -/
def constQueryParameter : Json := .obj [("in", .str "query")]

/-- The `marshalQueryParameter` struct fragment. -/
def QueryParameter.structJson (q : QueryParameter) : Except String Json :=
  (optEnumFld queryParameterStyleValues "QueryParameterStyle" "style" q.Style).map .obj

/-- `QueryParameter.MarshalJSON` on parsed values. -/
def QueryParameter.marshalJSONj (q : QueryParameter) : Except String Json :=
  unionJson [.ok constQueryParameter, QueryParameter.structJson q]

/-- HeaderParameter structure (`#/definitions/ParameterLocation/oneOf/2`);
it has no fields of its own. -/
structure HeaderParameter where

/-- The zero `HeaderParameter`. -/
def HeaderParameter.zero : HeaderParameter := ⟨⟩

/-- `HeaderParameter.UnmarshalJSON`: only the `in`/`style` constant checks
(a non-object payload leaves `rawMap` nil and is accepted). -/
def HeaderParameter.unmarshalJSON (prev : HeaderParameter) (data : Json) :
    Except String HeaderParameter :=
  let rawMap := Json.rawMap data
  match RawMap.lookup rawMap "in" with
  | some v =>
    if Json.serialize v ≠ "\"header\"".data then
      .error (badConstMsg "in" "\"header\"" (String.mk (Json.serialize v)))
    else headerParamStyleConst prev rawMap
  | none => headerParamStyleConst prev rawMap
where
  /-- The `style` constant check that follows the `in` check. -/
  headerParamStyleConst (prev : HeaderParameter) (rawMap : RawMap) :
      Except String HeaderParameter :=
    match RawMap.lookup rawMap "style" with
    | some v =>
      if Json.serialize v ≠ "\"simple\"".data then
        .error (badConstMsg "style" "\"simple\"" (String.mk (Json.serialize v)))
      else .ok prev
    | none => .ok prev

/-- The fixed fragment `constHeaderParameter`. -/
def constHeaderParameter : Json :=
  .obj [("in", .str "header"), ("style", .str "simple")]

/-- `HeaderParameter.MarshalJSON` on parsed values. -/
def HeaderParameter.marshalJSONj (_ : HeaderParameter) : Except String Json :=
  unionJson [.ok constHeaderParameter]

/-- CookieParameter structure (`#/definitions/ParameterLocation/oneOf/3`). -/
structure CookieParameter where

/-- The zero `CookieParameter`. -/
def CookieParameter.zero : CookieParameter := ⟨⟩

/-- `CookieParameter.UnmarshalJSON`: only the `in`/`style` constant checks. -/
def CookieParameter.unmarshalJSON (prev : CookieParameter) (data : Json) :
    Except String CookieParameter :=
  let rawMap := Json.rawMap data
  match RawMap.lookup rawMap "in" with
  | some v =>
    if Json.serialize v ≠ "\"cookie\"".data then
      .error (badConstMsg "in" "\"cookie\"" (String.mk (Json.serialize v)))
    else cookieParamStyleConst prev rawMap
  | none => cookieParamStyleConst prev rawMap
where
  /-- The `style` constant check that follows the `in` check. -/
  cookieParamStyleConst (prev : CookieParameter) (rawMap : RawMap) :
      Except String CookieParameter :=
    match RawMap.lookup rawMap "style" with
    | some v =>
      if Json.serialize v ≠ "\"form\"".data then
        .error (badConstMsg "style" "\"form\"" (String.mk (Json.serialize v)))
      else .ok prev
    | none => .ok prev

/-- The fixed fragment `constCookieParameter`. -/
def constCookieParameter : Json :=
  .obj [("in", .str "cookie"), ("style", .str "form")]

/-- `CookieParameter.MarshalJSON` on parsed values. -/
def CookieParameter.marshalJSONj (_ : CookieParameter) : Except String Json :=
  unionJson [.ok constCookieParameter]

/-- ParameterLocation union (`#/definitions/ParameterLocation`): one of the
four parameter-location arms. -/
structure ParameterLocation where
  PathParameter : Option PathParameter
  QueryParameter : Option QueryParameter
  HeaderParameter : Option HeaderParameter
  CookieParameter : Option CookieParameter

/-- The zero `ParameterLocation`. -/
def ParameterLocation.zero : ParameterLocation := ⟨none, none, none, none⟩

/-- `ParameterLocation.UnmarshalJSON`: try all four arms unconditionally,
require exactly one valid result, and report the count plus each failed
arm's error otherwise. -/
def ParameterLocation.unmarshalJSON (prev : ParameterLocation) (data : Json) :
    Except String ParameterLocation :=
  let r1 := decArm PathParameter.zero PathParameter.unmarshalJSON
    prev.PathParameter data
  let r2 := decArm QueryParameter.zero QueryParameter.unmarshalJSON
    prev.QueryParameter data
  let r3 := decArm HeaderParameter.zero HeaderParameter.unmarshalJSON
    prev.HeaderParameter data
  let r4 := decArm CookieParameter.zero CookieParameter.unmarshalJSON
    prev.CookieParameter data
  let errs := (match r1 with
    | .error e => [("PathParameter", e)]
    | .ok _ => []) ++ (match r2 with
    | .error e => [("QueryParameter", e)]
    | .ok _ => []) ++ (match r3 with
    | .error e => [("HeaderParameter", e)]
    | .ok _ => []) ++ (match r4 with
    | .error e => [("CookieParameter", e)]
    | .ok _ => [])
  let valid := (match r1 with | .ok _ => 1 | .error _ => 0) +
    ((match r2 with | .ok _ => 1 | .error _ => 0) +
      ((match r3 with | .ok _ => 1 | .error _ => 0) +
        (match r4 with | .ok _ => 1 | .error _ => 0)))
  if valid = 1 then
    .ok ⟨r1.toOption.getD none, r2.toOption.getD none,
      r3.toOption.getD none, r4.toOption.getD none⟩
  else
    .error (oneOfMsg "ParameterLocation" valid errs)

/-- `ParameterLocation.MarshalJSON` on parsed values. -/
def ParameterLocation.marshalJSONj (p : ParameterLocation) : Except String Json :=
  unionJson [armFrag (p.PathParameter.map PathParameter.marshalJSONj),
    armFrag (p.QueryParameter.map QueryParameter.marshalJSONj),
    armFrag (p.HeaderParameter.map HeaderParameter.marshalJSONj),
    armFrag (p.CookieParameter.map CookieParameter.marshalJSONj)]

/-- Decode a `map[string]ExampleOrRef` object body into an existing map. -/
def decExampleOrRefMapInto (acc : List (String × ExampleOrRef)) :
    RawMap → Except String (List (String × ExampleOrRef))
  | [] => .ok acc
  | (k, v) :: rest => do
    let x ← ExampleOrRef.unmarshalJSON ExampleOrRef.zero v
    decExampleOrRefMapInto (assocSet acc k x) rest

/-- Decode a struct field of type `map[string]ExampleOrRef`. -/
def decExamplesF (prev : List (String × ExampleOrRef)) (m : RawMap)
    (k : String) : Except String (List (String × ExampleOrRef)) :=
  match RawMap.lookup m k with
  | none => .ok prev
  | some .null => .ok []
  | some (.obj fs) => decExampleOrRefMapInto prev fs
  | some _ => .error (jsonTypeErr "map")

mutual

/-- Schema structure (`#/definitions/Schema`); the `ReflectType` field is
`json:"-"` metadata and not part of the wire model.  Constructor argument
order follows the Go field order. -/
inductive Schema where
  | mk : Option String → Option Int → Option Int → Option Bool → Option Int →
      Option Bool → Option Int → Option Int → Option String → Option Int →
      Option Int → Option Bool → Option Int → Option Int → List String →
      List Json → Option SchemaType → Option SchemaOrRef → List SchemaOrRef →
      List SchemaOrRef → List SchemaOrRef → Option SchemaOrRef →
      Option (List (String × SchemaOrRef)) → Option SchemaAdditionalProperties →
      Option String → Option String → Option Json → Option Bool →
      Option Discriminator → Option Bool → Option Bool → Option Json →
      Option ExternalDocumentation → Option Bool → Option XML →
      List (String × Json) → Schema

/-- SchemaOrRef union (`#/definitions/SchemaOrRef`). -/
inductive SchemaOrRef where
  | mk : Option Schema → Option SchemaReference → SchemaOrRef

/-- SchemaAdditionalProperties union
(`#/definitions/Schema->additionalProperties`). -/
inductive SchemaAdditionalProperties where
  | mk : Option SchemaOrRef → Option Bool → SchemaAdditionalProperties

/-- MediaType structure (`#/definitions/MediaType`): Schema, Example
(tri-state), Examples, Encoding, MapOfAnything. -/
inductive MediaType where
  | mk : Option SchemaOrRef → Option Json → List (String × ExampleOrRef) →
      List (String × Encoding) → List (String × Json) → MediaType

/-- Encoding structure (`#/definitions/Encoding`): ContentType, Headers,
Style, Explode, AllowReserved. -/
inductive Encoding where
  | mk : Option String → List (String × Header) → Option EncodingStyle →
      Option Bool → Option Bool → Encoding

/-- Header structure (`#/definitions/Header`): Description, Required,
Deprecated, AllowEmptyValue, Explode, AllowReserved, Schema, Content,
Example (tri-state), Examples, MapOfAnything. -/
inductive Header where
  | mk : Option String → Option Bool → Option Bool → Option Bool →
      Option Bool → Option Bool → Option SchemaOrRef →
      List (String × MediaType) → Option Json → List (String × ExampleOrRef) →
      List (String × Json) → Header

end

/-- The zero `Schema`. -/
def Schema.zero : Schema :=
  .mk none none none none none none none none none none none none none none
    [] [] none none [] [] [] none none none none none none none none none
    none none none none none []

/-- The zero `SchemaOrRef`. -/
def SchemaOrRef.zero : SchemaOrRef := .mk none none

/-- The `Schema` arm of a `SchemaOrRef`. -/
def SchemaOrRef.Schema : SchemaOrRef → Option Schema
  | .mk s _ => s

/-- The `SchemaReference` arm of a `SchemaOrRef`. -/
def SchemaOrRef.SchemaReference : SchemaOrRef → Option SchemaReference
  | .mk _ r => r

/-- The zero `SchemaAdditionalProperties`. -/
def SchemaAdditionalProperties.zero : SchemaAdditionalProperties := .mk none none

/-- The zero `MediaType`. -/
def MediaType.zero : MediaType := .mk none none [] [] []

/-- The zero `Encoding`. -/
def Encoding.zero : Encoding := .mk none [] none none none

/-- The zero `Header`. -/
def Header.zero : Header := .mk none none none none none none none [] none [] []

/-- Model artefact: the recursive decoders run on an explicit fuel bound. -/
def fuelErr : String := "model: fuel exhausted"

/-- Known keys of `Schema`. -/
def knownKeysSchema : List String :=
  ["title", "multipleOf", "maximum", "exclusiveMaximum", "minimum",
   "exclusiveMinimum", "maxLength", "minLength", "pattern", "maxItems",
   "minItems", "uniqueItems", "maxProperties", "minProperties", "required",
   "enum", "type", "not", "allOf", "oneOf", "anyOf", "items", "properties",
   "additionalProperties", "description", "format", "default", "nullable",
   "discriminator", "readOnly", "writeOnly", "example", "externalDocs",
   "deprecated", "xml"]

/-- Known keys of `MediaType`. -/
def knownKeysMediaType : List String := ["schema", "example", "examples", "encoding"]

/-- Known keys of `Encoding`. -/
def knownKeysEncoding : List String :=
  ["contentType", "headers", "style", "explode", "allowReserved"]

/-- Known keys of `Header` (the constant-tagged `style` key included). -/
def knownKeysHeader : List String :=
  ["description", "required", "deprecated", "allowEmptyValue", "explode",
   "allowReserved", "schema", "content", "example", "examples", "style"]

mutual

/-- `Schema.UnmarshalJSON`: structural decode of the 35 tagged fields,
tri-state recovery for `default`/`example`, `^x-` bucket routing, and the
unknown-key check. -/
def decSchema : Nat → Schema → Json → Except String Schema
  | 0, _, _ => .error fuelErr
  | fuel+1, prev, data =>
    match prev with
    | .mk tl mo mx exMax mn exMin maxL minL pat maxI minI uniq maxP minP req
        enm ty nt allf onef anyf itms props addP desc fmtv dflt nullb disc
        ro wo exv extd depr xmlv moa =>
      match data with
      | .null => .ok prev
      | .obj fs => do
        let tl ← decOptStrF tl fs "title"
        let mo ← decOptIntF mo fs "multipleOf"
        let mx ← decOptIntF mx fs "maximum"
        let exMax ← decOptBoolF exMax fs "exclusiveMaximum"
        let mn ← decOptIntF mn fs "minimum"
        let exMin ← decOptBoolF exMin fs "exclusiveMinimum"
        let maxL ← decOptIntF maxL fs "maxLength"
        let minL ← decOptIntF minL fs "minLength"
        let pat ← decOptStrF pat fs "pattern"
        let maxI ← decOptIntF maxI fs "maxItems"
        let minI ← decOptIntF minI fs "minItems"
        let uniq ← decOptBoolF uniq fs "uniqueItems"
        let maxP ← decOptIntF maxP fs "maxProperties"
        let minP ← decOptIntF minP fs "minProperties"
        let req ← decStrListF req fs "required"
        let enm ← decJsonListF enm fs "enum"
        let ty ← decOptEnumF schemaTypeValues "SchemaType" ty fs "type"
        let nt ← (match RawMap.lookup fs "not" with
          | none => .ok nt
          | some .null => .ok none
          | some v => (decSchemaOrRef fuel (nt.getD SchemaOrRef.zero) v).map some)
        let allf ← (match RawMap.lookup fs "allOf" with
          | none => .ok allf
          | some .null => .ok []
          | some (.arr xs) => decSchemaOrRefList fuel xs
          | some _ => .error (jsonTypeErr "[]SchemaOrRef"))
        let onef ← (match RawMap.lookup fs "oneOf" with
          | none => .ok onef
          | some .null => .ok []
          | some (.arr xs) => decSchemaOrRefList fuel xs
          | some _ => .error (jsonTypeErr "[]SchemaOrRef"))
        let anyf ← (match RawMap.lookup fs "anyOf" with
          | none => .ok anyf
          | some .null => .ok []
          | some (.arr xs) => decSchemaOrRefList fuel xs
          | some _ => .error (jsonTypeErr "[]SchemaOrRef"))
        let itms ← (match RawMap.lookup fs "items" with
          | none => .ok itms
          | some .null => .ok none
          | some v => (decSchemaOrRef fuel (itms.getD SchemaOrRef.zero) v).map some)
        let props ← (match RawMap.lookup fs "properties" with
          | none => .ok props
          | some .null => .ok none
          | some (.obj pfs) => (decSchemaOrRefMap fuel pfs).map some
          | some _ => .error (jsonTypeErr "OrderedMap"))
        let addP ← (match RawMap.lookup fs "additionalProperties" with
          | none => .ok addP
          | some .null => .ok none
          | some v =>
            (decSchemaAdditionalProperties fuel
              (addP.getD SchemaAdditionalProperties.zero) v).map some)
        let desc ← decOptStrF desc fs "description"
        let fmtv ← decOptStrF fmtv fs "format"
        let dflt ← decOptJsonF dflt fs "default"
        let nullb ← decOptBoolF nullb fs "nullable"
        let disc ← decPtrF Discriminator.zero Discriminator.unmarshalJSON disc fs "discriminator"
        let ro ← decOptBoolF ro fs "readOnly"
        let wo ← decOptBoolF wo fs "writeOnly"
        let exv ← decOptJsonF exv fs "example"
        let extd ← decPtrF ExternalDocumentation.zero
          ExternalDocumentation.unmarshalJSON extd fs "externalDocs"
        let depr ← decOptBoolF depr fs "deprecated"
        let xmlv ← decPtrF XML.zero XML.unmarshalJSON xmlv fs "xml"
        let dflt := if dflt.isNone ∧ RawMap.has fs "default" then some Json.null else dflt
        let exv := if exv.isNone ∧ RawMap.has fs "example" then some Json.null else exv
        let rest := RawMap.eraseKeys fs knownKeysSchema
        let r := routeX rest moa
        if r.2.isEmpty then
          .ok (Schema.mk tl mo mx exMax mn exMin maxL minL pat maxI minI uniq
            maxP minP req enm ty nt allf onef anyf itms props addP desc fmtv
            dflt nullb disc ro wo exv extd depr xmlv r.1)
        else .error (addPropsMsg "Schema" (r.2.map Prod.fst))
      | _ => .error (jsonTypeErr "Schema")

/-- `SchemaOrRef.UnmarshalJSON`: try the `Schema` and `SchemaReference`
arms (each with the receiver's existing arm value or a zero receiver),
require exactly one valid result. -/
def decSchemaOrRef : Nat → SchemaOrRef → Json → Except String SchemaOrRef
  | 0, _, _ => .error fuelErr
  | fuel+1, prev, data =>
    let r1 : Except String (Option Schema) :=
      match data with
      | .null => .ok none
      | _ => (decSchema fuel (prev.Schema.getD Schema.zero) data).map some
    let r2 := decArm SchemaReference.zero SchemaReference.unmarshalJSON
      prev.SchemaReference data
    let errs := (match r1 with
      | .error e => [("Schema", e)]
      | .ok _ => []) ++ (match r2 with
      | .error e => [("SchemaReference", e)]
      | .ok _ => [])
    let valid := (match r1 with | .ok _ => 1 | .error _ => 0) +
      (match r2 with | .ok _ => 1 | .error _ => 0)
    if valid = 1 then
      .ok (SchemaOrRef.mk (r1.toOption.getD none) (r2.toOption.getD none))
    else
      .error (oneOfMsg "SchemaOrRef" valid errs)

/-- Decode a JSON array of `SchemaOrRef` values (each from a zero receiver). -/
def decSchemaOrRefList : Nat → List Json → Except String (List SchemaOrRef)
  | 0, _ => .error fuelErr
  | _+1, [] => .ok []
  | fuel+1, v :: rest => do
    let x ← decSchemaOrRef fuel SchemaOrRef.zero v
    let xs ← decSchemaOrRefList fuel rest
    .ok (x :: xs)

/-- Decode an object of `SchemaOrRef` values in member order (the
`properties` ordered map). -/
def decSchemaOrRefMap : Nat → RawMap → Except String (List (String × SchemaOrRef))
  | 0, _ => .error fuelErr
  | _+1, [] => .ok []
  | fuel+1, (k, v) :: rest => do
    let x ← decSchemaOrRef fuel SchemaOrRef.zero v
    let xs ← decSchemaOrRefMap fuel rest
    .ok ((k, x) :: xs)

/-- `SchemaAdditionalProperties.UnmarshalJSON`: the `SchemaOrRef` and
`Bool` arms, exactly one valid. -/
def decSchemaAdditionalProperties : Nat → SchemaAdditionalProperties → Json →
    Except String SchemaAdditionalProperties
  | 0, _, _ => .error fuelErr
  | fuel+1, prev, data =>
    match prev with
    | .mk sor b =>
      let r1 : Except String (Option SchemaOrRef) :=
        match data with
        | .null => .ok none
        | _ => (decSchemaOrRef fuel (sor.getD SchemaOrRef.zero) data).map some
      let r2 : Except String (Option Bool) :=
        match data with
        | .null => .ok none
        | .bool bv => .ok (some bv)
        | _ => .error (jsonTypeErr "bool")
      let _ := b
      let errs := (match r1 with
        | .error e => [("SchemaOrRef", e)]
        | .ok _ => []) ++ (match r2 with
        | .error e => [("Bool", e)]
        | .ok _ => [])
      let valid := (match r1 with | .ok _ => 1 | .error _ => 0) +
        (match r2 with | .ok _ => 1 | .error _ => 0)
      if valid = 1 then
        .ok (SchemaAdditionalProperties.mk (r1.toOption.getD none) (r2.toOption.getD none))
      else
        .error (oneOfMsg "SchemaAdditionalProperties" valid errs)

/-- `MediaType.UnmarshalJSON`. -/
def decMediaType : Nat → MediaType → Json → Except String MediaType
  | 0, _, _ => .error fuelErr
  | fuel+1, prev, data =>
    match prev with
    | .mk schema exv examples encoding moa =>
      match data with
      | .null => .ok prev
      | .obj fs => do
        let schema ← (match RawMap.lookup fs "schema" with
          | none => .ok schema
          | some .null => .ok none
          | some v => (decSchemaOrRef fuel (schema.getD SchemaOrRef.zero) v).map some)
        let exv ← decOptJsonF exv fs "example"
        let examples ← decExamplesF examples fs "examples"
        let encoding ← (match RawMap.lookup fs "encoding" with
          | none => .ok encoding
          | some .null => .ok []
          | some (.obj efs) => decEncodingMapInto fuel encoding efs
          | some _ => .error (jsonTypeErr "map"))
        let exv := if exv.isNone ∧ RawMap.has fs "example" then some Json.null else exv
        let rest := RawMap.eraseKeys fs knownKeysMediaType
        let r := routeX rest moa
        if r.2.isEmpty then
          .ok (MediaType.mk schema exv examples encoding r.1)
        else .error (addPropsMsg "MediaType" (r.2.map Prod.fst))
      | _ => .error (jsonTypeErr "MediaType")

/-- Decode a `map[string]Encoding` object body into an existing map. -/
def decEncodingMapInto : Nat → List (String × Encoding) → RawMap →
    Except String (List (String × Encoding))
  | 0, _, _ => .error fuelErr
  | _+1, acc, [] => .ok acc
  | fuel+1, acc, (k, v) :: rest => do
    let x ← decEncoding fuel Encoding.zero v
    decEncodingMapInto fuel (assocSet acc k x) rest

/-- `Encoding.UnmarshalJSON` (no bucket; unknown keys rejected). -/
def decEncoding : Nat → Encoding → Json → Except String Encoding
  | 0, _, _ => .error fuelErr
  | fuel+1, prev, data =>
    match prev with
    | .mk contentType headers style explode allowReserved =>
      match data with
      | .null => .ok prev
      | .obj fs => do
        let contentType ← decOptStrF contentType fs "contentType"
        let headers ← (match RawMap.lookup fs "headers" with
          | none => .ok headers
          | some .null => .ok []
          | some (.obj hfs) => decHeaderMapInto fuel headers hfs
          | some _ => .error (jsonTypeErr "map"))
        let style ← decOptEnumF encodingStyleValues "EncodingStyle" style fs "style"
        let explode ← decOptBoolF explode fs "explode"
        let allowReserved ← decOptBoolF allowReserved fs "allowReserved"
        let rest := RawMap.eraseKeys fs knownKeysEncoding
        if rest.isEmpty then
          .ok (Encoding.mk contentType headers style explode allowReserved)
        else .error (addPropsMsg "Encoding" (rest.map Prod.fst))
      | _ => .error (jsonTypeErr "Encoding")

/-- Decode a `map[string]Header` object body into an existing map. -/
def decHeaderMapInto : Nat → List (String × Header) → RawMap →
    Except String (List (String × Header))
  | 0, _, _ => .error fuelErr
  | _+1, acc, [] => .ok acc
  | fuel+1, acc, (k, v) :: rest => do
    let x ← decHeader fuel Header.zero v
    decHeaderMapInto fuel (assocSet acc k x) rest

/-- Decode a `map[string]MediaType` object body into an existing map. -/
def decMediaTypeMapInto : Nat → List (String × MediaType) → RawMap →
    Except String (List (String × MediaType))
  | 0, _, _ => .error fuelErr
  | _+1, acc, [] => .ok acc
  | fuel+1, acc, (k, v) :: rest => do
    let x ← decMediaType fuel MediaType.zero v
    decMediaTypeMapInto fuel (assocSet acc k x) rest

/-- `Header.UnmarshalJSON`: structural decode, the `style` constant check,
tri-state recovery of `example`, bucket routing, unknown-key check. -/
def decHeader : Nat → Header → Json → Except String Header
  | 0, _, _ => .error fuelErr
  | fuel+1, prev, data =>
    match prev with
    | .mk description required deprecated allowEmptyValue explode
        allowReserved schema content exv examples moa =>
      match data with
      | .null => .ok prev
      | .obj fs => do
        let description ← decOptStrF description fs "description"
        let required ← decOptBoolF required fs "required"
        let deprecated ← decOptBoolF deprecated fs "deprecated"
        let allowEmptyValue ← decOptBoolF allowEmptyValue fs "allowEmptyValue"
        let explode ← decOptBoolF explode fs "explode"
        let allowReserved ← decOptBoolF allowReserved fs "allowReserved"
        let schema ← (match RawMap.lookup fs "schema" with
          | none => .ok schema
          | some .null => .ok none
          | some v => (decSchemaOrRef fuel (schema.getD SchemaOrRef.zero) v).map some)
        let content ← (match RawMap.lookup fs "content" with
          | none => .ok content
          | some .null => .ok []
          | some (.obj cfs) => decMediaTypeMapInto fuel content cfs
          | some _ => .error (jsonTypeErr "map"))
        let exv ← decOptJsonF exv fs "example"
        let examples ← decExamplesF examples fs "examples"
        match RawMap.lookup fs "style" with
        | some v =>
          if Json.serialize v ≠ "\"simple\"".data then
            .error (badConstMsg "style" "\"simple\"" (String.mk (Json.serialize v)))
          else
            decHeaderTail fuel fs description required deprecated
              allowEmptyValue explode allowReserved schema content exv examples moa
        | none =>
          decHeaderTail fuel fs description required deprecated
            allowEmptyValue explode allowReserved schema content exv examples moa
      | _ => .error (jsonTypeErr "Header")

/-- The tail of `Header.UnmarshalJSON` after the `style` constant check. -/
def decHeaderTail : Nat → RawMap → Option String → Option Bool → Option Bool →
    Option Bool → Option Bool → Option Bool → Option SchemaOrRef →
    List (String × MediaType) → Option Json → List (String × ExampleOrRef) →
    List (String × Json) → Except String Header
  | _, fs, description, required, deprecated, allowEmptyValue, explode,
      allowReserved, schema, content, exv, examples, moa =>
    let exv := if exv.isNone ∧ RawMap.has fs "example" then some Json.null else exv
    let rest := RawMap.eraseKeys fs knownKeysHeader
    let r := routeX rest moa
    if r.2.isEmpty then
      .ok (Header.mk description required deprecated allowEmptyValue explode
        allowReserved schema content exv examples r.1)
    else .error (addPropsMsg "Header" (r.2.map Prod.fst))

end

/-- Marshal a `map[string]ExampleOrRef` field body. -/
def examplesObj (xs : List (String × ExampleOrRef)) :
    Except String (List (String × Json)) :=
  xs.mapM (fun p => (ExampleOrRef.marshalJSONj p.2).map (fun j => (p.1, j)))

/-- A struct-marshal member for an `omitempty` `map[string]ExampleOrRef`
field. -/
def examplesFld (k : String) (xs : List (String × ExampleOrRef)) :
    Except String (List (String × Json)) :=
  match xs with
  | [] => .ok []
  | _ => (examplesObj xs).map (fun ps => [(k, Json.obj ps)])

/-- The fixed fragment `constHeader` (`style` is pinned to `simple`). -/
def constHeader : Json := .obj [("style", .str "simple")]

mutual

/-- `Schema.MarshalJSON` on parsed values:
`marshalUnion(marshalSchema(s), s.MapOfAnything)`. -/
def marshalSchema : Nat → Schema → Except String Json
  | 0, _ => .error fuelErr
  | fuel+1, .mk tl mo mx exMax mn exMin maxL minL pat maxI minI uniq maxP
      minP req enm ty nt allf onef anyf itms props addP desc fmtv dflt nullb
      disc ro wo exv extd depr xmlv moa => do
    let tyFld ← optEnumFld schemaTypeValues "SchemaType" "type" ty
    let ntFld ← (match nt with
      | none => .ok ([] : List (String × Json))
      | some s => (marshalSchemaOrRef fuel s).map (fun j => [("not", j)]))
    let allOfFld ← (match allf with
      | [] => .ok ([] : List (String × Json))
      | xs => (marshalSchemaOrRefArr fuel xs).map (fun js => [("allOf", Json.arr js)]))
    let oneOfFld ← (match onef with
      | [] => .ok ([] : List (String × Json))
      | xs => (marshalSchemaOrRefArr fuel xs).map (fun js => [("oneOf", Json.arr js)]))
    let anyOfFld ← (match anyf with
      | [] => .ok ([] : List (String × Json))
      | xs => (marshalSchemaOrRefArr fuel xs).map (fun js => [("anyOf", Json.arr js)]))
    let itemsFld ← (match itms with
      | none => .ok ([] : List (String × Json))
      | some s => (marshalSchemaOrRef fuel s).map (fun j => [("items", j)]))
    let propsFld ← (match props with
      | none => .ok ([] : List (String × Json))
      | some pfs =>
        (marshalSchemaOrRefPairs fuel pfs).map (fun ps => [("properties", Json.obj ps)]))
    let addPFld ← (match addP with
      | none => .ok ([] : List (String × Json))
      | some a =>
        (marshalSchemaAdditionalProperties fuel a).map
          (fun j => [("additionalProperties", j)]))
    let discFld := (match disc with
      | none => ([] : List (String × Json))
      | some d => [("discriminator", Discriminator.structJson d)])
    let extdFld ← optSubFld "externalDocs" (extd.map ExternalDocumentation.marshalJSONj)
    let xmlFld ← optSubFld "xml" (xmlv.map XML.marshalJSONj)
    let structObj := Json.obj (optStrFld "title" tl ++ optIntFld "multipleOf" mo ++
      optIntFld "maximum" mx ++ optBoolFld "exclusiveMaximum" exMax ++
      optIntFld "minimum" mn ++ optBoolFld "exclusiveMinimum" exMin ++
      optIntFld "maxLength" maxL ++ optIntFld "minLength" minL ++
      optStrFld "pattern" pat ++ optIntFld "maxItems" maxI ++
      optIntFld "minItems" minI ++ optBoolFld "uniqueItems" uniq ++
      optIntFld "maxProperties" maxP ++ optIntFld "minProperties" minP ++
      (if req.isEmpty then [] else [("required", Json.arr (req.map Json.str))]) ++
      (if enm.isEmpty then [] else [("enum", Json.arr enm)]) ++
      tyFld ++ ntFld ++ allOfFld ++ oneOfFld ++ anyOfFld ++ itemsFld ++
      propsFld ++ addPFld ++ optStrFld "description" desc ++
      optStrFld "format" fmtv ++ optJsonFld "default" dflt ++
      optBoolFld "nullable" nullb ++ discFld ++ optBoolFld "readOnly" ro ++
      optBoolFld "writeOnly" wo ++ optJsonFld "example" exv ++ extdFld ++
      optBoolFld "deprecated" depr ++ xmlFld)
    unionJson [.ok structObj, .ok (mapFrag moa)]

/-- `SchemaOrRef.MarshalJSON` on parsed values:
`marshalUnion(s.Schema, s.SchemaReference)`. -/
def marshalSchemaOrRef : Nat → SchemaOrRef → Except String Json
  | 0, _ => .error fuelErr
  | fuel+1, .mk sc ref => do
    let f1 ← (match sc with
      | none => .ok Json.null
      | some s => marshalSchema fuel s)
    unionJson [.ok f1,
      .ok (match ref with
        | none => Json.null
        | some r => SchemaReference.structJson r)]

/-- Marshal a `[]SchemaOrRef` slice body. -/
def marshalSchemaOrRefArr : Nat → List SchemaOrRef → Except String (List Json)
  | 0, _ => .error fuelErr
  | _+1, [] => .ok []
  | fuel+1, s :: rest => do
    let j ← marshalSchemaOrRef fuel s
    let js ← marshalSchemaOrRefArr fuel rest
    .ok (j :: js)

/-- Marshal the `properties` ordered map body. -/
def marshalSchemaOrRefPairs : Nat → List (String × SchemaOrRef) →
    Except String (List (String × Json))
  | 0, _ => .error fuelErr
  | _+1, [] => .ok []
  | fuel+1, (k, s) :: rest => do
    let j ← marshalSchemaOrRef fuel s
    let js ← marshalSchemaOrRefPairs fuel rest
    .ok ((k, j) :: js)

/-- `SchemaAdditionalProperties.MarshalJSON` on parsed values:
`marshalUnion(s.SchemaOrRef, s.Bool)`. -/
def marshalSchemaAdditionalProperties : Nat → SchemaAdditionalProperties →
    Except String Json
  | 0, _ => .error fuelErr
  | fuel+1, .mk sor b => do
    let f1 ← (match sor with
      | none => .ok Json.null
      | some s => marshalSchemaOrRef fuel s)
    unionJson [.ok f1,
      .ok (match b with
        | none => Json.null
        | some bv => Json.bool bv)]

/-- `MediaType.MarshalJSON` on parsed values:
`marshalUnion(marshalMediaType(m), m.MapOfAnything)`. -/
def marshalMediaType : Nat → MediaType → Except String Json
  | 0, _ => .error fuelErr
  | fuel+1, .mk schema exv examples encoding moa => do
    let schemaFld ← (match schema with
      | none => .ok ([] : List (String × Json))
      | some s => (marshalSchemaOrRef fuel s).map (fun j => [("schema", j)]))
    let examplesFldv ← examplesFld "examples" examples
    let encodingFld ← (match encoding with
      | [] => .ok ([] : List (String × Json))
      | xs => (marshalEncodingPairs fuel xs).map (fun ps => [("encoding", Json.obj ps)]))
    let structObj := Json.obj (schemaFld ++ optJsonFld "example" exv ++
      examplesFldv ++ encodingFld)
    unionJson [.ok structObj, .ok (mapFrag moa)]

/-- Marshal a `map[string]MediaType` field body. -/
def marshalMediaTypePairs : Nat → List (String × MediaType) →
    Except String (List (String × Json))
  | 0, _ => .error fuelErr
  | _+1, [] => .ok []
  | fuel+1, (k, m) :: rest => do
    let j ← marshalMediaType fuel m
    let js ← marshalMediaTypePairs fuel rest
    .ok ((k, j) :: js)

/-- The default (struct-tag) marshalling of `Encoding`. -/
def marshalEncoding : Nat → Encoding → Except String Json
  | 0, _ => .error fuelErr
  | fuel+1, .mk contentType headers style explode allowReserved => do
    let headersFld ← (match headers with
      | [] => .ok ([] : List (String × Json))
      | xs => (marshalHeaderPairs fuel xs).map (fun ps => [("headers", Json.obj ps)]))
    let styleFld ← optEnumFld encodingStyleValues "EncodingStyle" "style" style
    .ok (Json.obj (optStrFld "contentType" contentType ++ headersFld ++
      styleFld ++ optBoolFld "explode" explode ++
      optBoolFld "allowReserved" allowReserved))

/-- Marshal a `map[string]Encoding` field body. -/
def marshalEncodingPairs : Nat → List (String × Encoding) →
    Except String (List (String × Json))
  | 0, _ => .error fuelErr
  | _+1, [] => .ok []
  | fuel+1, (k, e) :: rest => do
    let j ← marshalEncoding fuel e
    let js ← marshalEncodingPairs fuel rest
    .ok ((k, j) :: js)

/-- `Header.MarshalJSON` on parsed values:
`marshalUnion(constHeader, marshalHeader(h), h.MapOfAnything)`. -/
def marshalHeader : Nat → Header → Except String Json
  | 0, _ => .error fuelErr
  | fuel+1, .mk description required deprecated allowEmptyValue explode
      allowReserved schema content exv examples moa => do
    let schemaFld ← (match schema with
      | none => .ok ([] : List (String × Json))
      | some s => (marshalSchemaOrRef fuel s).map (fun j => [("schema", j)]))
    let contentFld ← (match content with
      | [] => .ok ([] : List (String × Json))
      | xs => (marshalMediaTypePairs fuel xs).map (fun ps => [("content", Json.obj ps)]))
    let examplesFldv ← examplesFld "examples" examples
    let structObj := Json.obj (optStrFld "description" description ++
      optBoolFld "required" required ++ optBoolFld "deprecated" deprecated ++
      optBoolFld "allowEmptyValue" allowEmptyValue ++
      optBoolFld "explode" explode ++ optBoolFld "allowReserved" allowReserved ++
      schemaFld ++ contentFld ++ optJsonFld "example" exv ++ examplesFldv)
    unionJson [.ok constHeader, .ok structObj, .ok (mapFrag moa)]

/-- Marshal a `map[string]Header` field body. -/
def marshalHeaderPairs : Nat → List (String × Header) →
    Except String (List (String × Json))
  | 0, _ => .error fuelErr
  | _+1, [] => .ok []
  | fuel+1, (k, h) :: rest => do
    let j ← marshalHeader fuel h
    let js ← marshalHeaderPairs fuel rest
    .ok ((k, j) :: js)

end

/-- Parameter structure (`#/definitions/Parameter`); `SchemaXORContent` and
`Location` are the embedded `json:"-"` union groups, `Example` is the
tri-state `*interface{}` field. -/
structure Parameter where
  Name : String
  In : ParameterIn
  Description : Option String
  Required : Option Bool
  Deprecated : Option Bool
  AllowEmptyValue : Option Bool
  Style : Option String
  Explode : Option Bool
  AllowReserved : Option Bool
  Schema : Option SchemaOrRef
  Content : List (String × MediaType)
  Example : Option Json
  Examples : List (String × ExampleOrRef)
  SchemaXORContent : Option SchemaXORContent
  Location : Option ParameterLocation
  MapOfAnything : List (String × Json)

/-- The zero `Parameter`. -/
def Parameter.zero : Parameter :=
  ⟨"", "", none, none, none, none, none, none, none, none, [], none, [],
    none, none, []⟩

/-- Known keys of `Parameter`. -/
def knownKeysParameter : List String :=
  ["name", "in", "description", "required", "deprecated", "allowEmptyValue",
   "style", "explode", "allowReserved", "schema", "content", "example",
   "examples"]

/-- Required keys of `Parameter`. -/
def requireKeysParameter : List String := ["name", "in"]

/-- The `json.Unmarshal(data, &mp)` structural step for `Parameter`. -/
def Parameter.structDec (fuel : Nat) (prev : Parameter) :
    Json → Except String Parameter
  | .null => .ok prev
  | .obj fs => do
    let name ← decStrF prev.Name fs "name"
    let inv ← decEnumF parameterInValues "ParameterIn" prev.In fs "in"
    let description ← decOptStrF prev.Description fs "description"
    let required ← decOptBoolF prev.Required fs "required"
    let deprecated ← decOptBoolF prev.Deprecated fs "deprecated"
    let aev ← decOptBoolF prev.AllowEmptyValue fs "allowEmptyValue"
    let style ← decOptStrF prev.Style fs "style"
    let explode ← decOptBoolF prev.Explode fs "explode"
    let ar ← decOptBoolF prev.AllowReserved fs "allowReserved"
    let schema ← (match RawMap.lookup fs "schema" with
      | none => .ok prev.Schema
      | some .null => .ok none
      | some v => (decSchemaOrRef fuel (prev.Schema.getD SchemaOrRef.zero) v).map some)
    let content ← (match RawMap.lookup fs "content" with
      | none => .ok prev.Content
      | some .null => .ok []
      | some (.obj cfs) => decMediaTypeMapInto fuel prev.Content cfs
      | some _ => .error (jsonTypeErr "map"))
    let examplev ← decOptJsonF prev.Example fs "example"
    let examples ← decExamplesF prev.Examples fs "examples"
    .ok { prev with Name := name, In := inv, Description := description,
                    Required := required, Deprecated := deprecated,
                    AllowEmptyValue := aev, Style := style, Explode := explode,
                    AllowReserved := ar, Schema := schema, Content := content,
                    Example := examplev, Examples := examples }
  | _ => .error (jsonTypeErr "Parameter")

/-- `Parameter.UnmarshalJSON` in receiver form: the staged copy `mp` is
assigned to the receiver only by the final success return, so every error
return leaves the receiver argument `p` as the result state, exactly as the
single `*p = Parameter(mp)` write at the end of the Go method does. -/
def Parameter.unmarshalJSONm (fuel : Nat) (p : Parameter) (data : Json) :
    Parameter × Option String :=
  match Parameter.structDec fuel p data with
  | .error e => (p, some e)
  | .ok mp =>
    match decArm SchemaXORContent.zero SchemaXORContent.unmarshalJSON
        mp.SchemaXORContent data with
    | .error e => (p, some e)
    | .ok sxc =>
      match decArm ParameterLocation.zero ParameterLocation.unmarshalJSON
          mp.Location data with
      | .error e => (p, some e)
      | .ok loc =>
        let mp := { mp with SchemaXORContent := sxc, Location := loc }
        let rawMap := Json.rawMap data
        match firstMissing requireKeysParameter rawMap with
        | some k => (p, some (requiredMsg k))
        | none =>
          let mp :=
            if mp.Example.isNone ∧ rawMap.has "example" then
              { mp with Example := some Json.null }
            else mp
          let rest := rawMap.eraseKeys knownKeysParameter
          let r := routeX rest mp.MapOfAnything
          if r.2.isEmpty then ({ mp with MapOfAnything := r.1 }, none)
          else (p, some (addPropsMsg "Parameter" (r.2.map Prod.fst)))

/-- The `marshalParameter` struct fragment. -/
def Parameter.structJson (fuel : Nat) (p : Parameter) : Except String Json := do
  let inJ ← enumMarshal parameterInValues "ParameterIn" p.In
  let schemaFld ← (match p.Schema with
    | none => .ok ([] : List (String × Json))
    | some s => (marshalSchemaOrRef fuel s).map (fun j => [("schema", j)]))
  let contentFld ← (match p.Content with
    | [] => .ok ([] : List (String × Json))
    | xs => (marshalMediaTypePairs fuel xs).map (fun ps => [("content", Json.obj ps)]))
  let examplesFldv ← examplesFld "examples" p.Examples
  .ok (.obj (fld "name" (.str p.Name) ++ fld "in" inJ ++
    optStrFld "description" p.Description ++ optBoolFld "required" p.Required ++
    optBoolFld "deprecated" p.Deprecated ++
    optBoolFld "allowEmptyValue" p.AllowEmptyValue ++
    optStrFld "style" p.Style ++ optBoolFld "explode" p.Explode ++
    optBoolFld "allowReserved" p.AllowReserved ++ schemaFld ++ contentFld ++
    optJsonFld "example" p.Example ++ examplesFldv))

/-- `Parameter.MarshalJSON`: `marshalUnion(marshalParameter(p),
p.MapOfAnything, p.SchemaXORContent, p.Location)`. -/
def Parameter.marshalJSON (fuel : Nat) (p : Parameter) :
    Except String (List Char) :=
  marshalUnion [(Parameter.structJson fuel p).map Json.serialize,
    .ok (Json.serialize (mapFrag p.MapOfAnything)),
    (armFrag (p.SchemaXORContent.map SchemaXORContent.marshalJSONj)).map Json.serialize,
    (armFrag (p.Location.map ParameterLocation.marshalJSONj)).map Json.serialize]

/-- Functional specification of the union-merge accumulator, written from
the merge rules: nothing merged yet, an adopted scalar, or accumulated
object bytes. -/
inductive MState where
  | empty : MState
  | scal : List Char → MState
  | objA : List Char → MState

/-- Render the final specification state (`{}` when nothing was merged). -/
def MState.render : MState → List Char
  | .empty => emptyObjChars
  | .scal s => s
  | .objA cs => cs

/-- Functional specification of the union merge, one rule per case: `{}`
and `null` fragments are skipped; object fragments open the accumulator or
are appended to it, but clash with an adopted scalar; a scalar fragment is
adopted while nothing is merged, tolerated when it repeats a single-byte
adopted scalar byte-for-byte, and is an error otherwise. -/
def mergeSpec : List (Except String (List Char)) → MState → Except String MState
  | [], st => .ok st
  | .error e :: _, _ => .error e
  | .ok j :: rest, st =>
    if j = emptyObjChars ∨ j = nullChars then mergeSpec rest st
    else if j.head? = some '{' then
      match st with
      | .scal s => .error ("failed to union " ++ String.mk s ++ " and " ++ String.mk j)
      | .empty => mergeSpec rest (.objA j)
      | .objA cs => mergeSpec rest (.objA (cs.dropLast ++ ',' :: j.tail))
    else
      match st with
      | .empty => mergeSpec rest (.scal j)
      | .scal s =>
        if s.length = 1 ∧ s = j then mergeSpec rest (.scal s)
        else .error ("failed to union map: object expected, " ++ String.mk j ++ " received")
      | .objA _ =>
        .error ("failed to union map: object expected, " ++ String.mk j ++ " received")

/-- The byte accumulator a merge state stands for (`result` in the loop). -/
def MState.bytes : MState → List Char
  | .empty => ['{']
  | .scal s => s
  | .objA cs => cs

/-- The `isObject` flag a merge state stands for. -/
def MState.isObj : MState → Bool
  | .scal _ => false
  | _ => true

/-- Accumulator invariant of the byte loop: collected object members always
start with `{` and extend past it. -/
def MState.inv : MState → Prop
  | .objA cs => cs.head? = some '{' ∧ 1 < cs.length
  | _ => True

/-- Pairwise-distinct key list, as a computable check. -/
def listNodupB : List String → Bool
  | [] => true
  | k :: rest => !(rest.contains k) && listNodupB rest

/-- A well-formed `^x-` bucket: every key matches the pattern and keys are
distinct (Go map keys are unique). -/
def xbucketWFb (l : List (String × Json)) : Bool :=
  l.all (fun p => matchesX p.1) && listNodupB (l.map Prod.fst)

/-- A `Contact` value within its declared schema shape. -/
def Contact.wfb (c : Contact) : Bool := xbucketWFb c.MapOfAnything

/-- A `License` value within its declared schema shape. -/
def License.wfb (l : License) : Bool := xbucketWFb l.MapOfAnything

/-- An `Info` value within its declared schema shape (its own bucket plus
the nested `Contact`/`License` nodes). -/
def Info.wfb (i : Info) : Bool :=
  xbucketWFb i.MapOfAnything &&
    (match i.Contact with | none => true | some c => Contact.wfb c) &&
    (match i.License with | none => true | some l => License.wfb l)

/-- Fixture: the spec scenario payload `{"in":"path","name":"id","required":true}`. -/
def pathArmPayload : Json :=
  .obj [("in", .str "path"), ("name", .str "id"), ("required", .bool true)]

/-- Fixture: the spec scenario payload `{"in":"path","required":false}`. -/
def pathArmBadConstPayload : Json :=
  .obj [("in", .str "path"), ("required", .bool false)]

/-- Fixture: `{"in":"path"}` (the constant-tagged `required` key absent). -/
def pathArmMissingRequiredPayload : Json := .obj [("in", .str "path")]

/-- Fixture: the spec scenario payload
`{"schema":{"type":"string"},"content":{"a":{}}}`. -/
def xorBothPayload : Json :=
  .obj [("schema", .obj [("type", .str "string")]), ("content", .obj [("a", .obj [])])]

/-- Fixture: the spec scenario payload `{"schema":{"type":"string"}}`. -/
def xorSchemaOnlyPayload : Json :=
  .obj [("schema", .obj [("type", .str "string")])]

/-- Fixture: a structurally decodable parameter payload with the required
`in` key removed. -/
def paramNoInPayload : Json :=
  .obj [("name", .str "n"), ("schema", .obj [("type", .str "string")])]

/-- Fixture: a valid parameter payload. -/
def paramValidPayload : Json :=
  .obj [("name", .str "id"), ("in", .str "query"),
    ("schema", .obj [("type", .str "string")])]

/-- Fixture: a valid parameter payload with its required `name` key removed. -/
def paramNoNamePayload : Json :=
  .obj [("in", .str "query"), ("schema", .obj [("type", .str "string")])]

/-- Fixture: a valid parameter payload plus two unrecognized keys and one
`^x-` bucket key. -/
def paramUnknownPayload : Json :=
  .obj [("name", .str "id"), ("in", .str "query"),
    ("schema", .obj [("type", .str "string")]), ("foo", .num 1),
    ("x-a", .bool true), ("bar", .str "z")]

/-- Fixture: a valid parameter payload carrying `"example": null`. -/
def paramExampleNullPayload : Json :=
  .obj [("name", .str "id"), ("in", .str "query"),
    ("schema", .obj [("type", .str "string")]), ("example", .null)]

/-- Fixture: a license payload whose required `name` key is present with a
`null` value. -/
def licenseNameNullPayload : Json := .obj [("name", .null)]

/-- Fixture: an `Info` node with extension-bucket entries at two levels. -/
def myInfoFixture : Info :=
  ⟨"T", some "D", none,
    some ⟨some "c", none, none, [("x-c", .num 7)]⟩,
    some ⟨"MIT", none, []⟩,
    "1.0", [("x-a", .str "v"), ("x-b", .null)]⟩

/-- Fixture: a valid parameter payload routed through `content` (so the
staged values stay small). -/
def paramContentPayload : Json :=
  .obj [("name", .str "id"), ("in", .str "query"), ("content", .obj [("a", .obj [])])]

/-- Fixture: `paramContentPayload` plus two unrecognized keys and one `^x-`
bucket key. -/
def paramUnknownContentPayload : Json :=
  .obj [("name", .str "id"), ("in", .str "query"), ("content", .obj [("a", .obj [])]),
    ("foo", .num 1), ("x-a", .bool true), ("bar", .str "z")]

/-- The structural-decode stage value produced by the two `content`-based
parameter fixtures. -/
def mpContentFixture : Parameter :=
  ⟨"id", "query", none, none, none, none, none, none, none, none,
    [("a", MediaType.zero)], none, [], none, none, []⟩

/-- The exclusivity-group stage value produced by the two `content`-based
parameter fixtures. -/
def sxcContentFixture : Option SchemaXORContent :=
  some ⟨none, some ⟨.obj [("a", .obj [])]⟩⟩

/-- The location-union stage value produced by the two `content`-based
parameter fixtures. -/
def locQueryFixture : Option ParameterLocation :=
  some ⟨none, some ⟨none⟩, none, none⟩

/-- Fixture: the `content`-based parameter payload with its required `name`
key removed. -/
def paramNoNameContentPayload : Json :=
  .obj [("in", .str "query"), ("content", .obj [("a", .obj [])])]

/-- The structural-decode stage value produced by
`paramNoNameContentPayload` (the absent `name` keeps the zero value). -/
def mpNoNameFixture : Parameter :=
  ⟨"", "query", none, none, none, none, none, none, none, none,
    [("a", MediaType.zero)], none, [], none, none, []⟩

/-- Fixture: the members of the `content`-based parameter payload with no
`example` key. -/
def exAbsentFields : RawMap :=
  [("name", .str "id"), ("in", .str "query"), ("content", .obj [("a", .obj [])])]

/-- Fixture: the members of the `content`-based parameter payload with
`"example": null`. -/
def exNullFields : RawMap :=
  [("name", .str "id"), ("in", .str "query"), ("content", .obj [("a", .obj [])]),
    ("example", .null)]

/-- Fixture: the members of the `content`-based parameter payload with
`"example": 7`. -/
def exValFields : RawMap :=
  [("name", .str "id"), ("in", .str "query"), ("content", .obj [("a", .obj [])]),
    ("example", .num 7)]

/-- The structural-decode stage value produced by `exValFields`. -/
def mpExValFixture : Parameter :=
  ⟨"id", "query", none, none, none, none, none, none, none, none,
    [("a", MediaType.zero)], some (.num 7), [], none, none, []⟩

/-- A parameter holding a present-null `example`. -/
def mpExNullFixture : Parameter :=
  ⟨"id", "query", none, none, none, none, none, none, none, none,
    [("a", MediaType.zero)], some Json.null, [], none, none, []⟩

/-- The known-field fragment marshalled from `mpExNullFixture`. -/
def jExNullFixture : Json :=
  .obj [("name", .str "id"), ("in", .str "query"),
    ("content", .obj [("a", .obj [])]), ("example", Json.null)]

/-- The known-field fragment marshalled from `mpContentFixture`. -/
def jExAbsentFixture : Json :=
  .obj [("name", .str "id"), ("in", .str "query"),
    ("content", .obj [("a", .obj [])])]

/-- A constant-tagged key is satisfied when it is absent or its raw bytes
equal the arm's fixed literal. -/
def constOk (m : RawMap) (k : String) (lit : List Char) : Prop :=
  ∀ v, RawMap.lookup m k = some v → Json.serialize v = lit

/-- The members of an object value (empty for any other value). -/
def Json.objFields : Json → List (String × Json)
  | .obj fs => fs
  | _ => []

/-- A fragment value that serializes to an object or to `null`. -/
def Json.isObjOrNull : Json → Prop
  | .obj _ => True
  | .null => True
  | _ => False

/-- The flat object a `Contact` encodes to: known-field members then the
extension bucket. -/
def Contact.flat (c : Contact) : Json :=
  .obj ((Contact.structJson c).objFields ++ c.MapOfAnything)

/-- The flat object a `License` encodes to. -/
def License.flat (l : License) : Json :=
  .obj ((License.structJson l).objFields ++ l.MapOfAnything)

/-- The `contact` member of the `marshalInfo` fragment. -/
def infoContactFld : Option Contact → RawMap
  | none => []
  | some c => [("contact", Contact.flat c)]

/-- The `license` member of the `marshalInfo` fragment. -/
def infoLicenseFld : Option License → RawMap
  | none => []
  | some l => [("license", License.flat l)]

/-- The members of the `marshalInfo` fragment. -/
def infoFields (i : Info) : RawMap :=
  fld "title" (.str i.Title) ++ optStrFld "description" i.Description ++
    optStrFld "termsOfService" i.TermsOfService ++ infoContactFld i.Contact ++
    infoLicenseFld i.License ++ fld "version" (.str i.Version)

/-- The flat object an `Info` encodes to. -/
def Info.flat (i : Info) : Json := .obj (infoFields i ++ i.MapOfAnything)

/-- The `Schema` arm attempt of `SchemaOrRef.UnmarshalJSON`. -/
def sorSchemaArm (fuel : Nat) (prev : SchemaOrRef) (data : Json) :
    Except String (Option Schema) :=
  match data with
  | .null => .ok none
  | _ => (decSchema fuel (prev.Schema.getD Schema.zero) data).map some

/-- The `SchemaReference` arm attempt of `SchemaOrRef.UnmarshalJSON`. -/
def sorRefArm (prev : SchemaOrRef) (data : Json) :
    Except String (Option SchemaReference) :=
  decArm SchemaReference.zero SchemaReference.unmarshalJSON
    prev.SchemaReference data

/-- How many `SchemaOrRef` arms accept the payload. -/
def sorValidCount (fuel : Nat) (prev : SchemaOrRef) (data : Json) : Nat :=
  (match sorSchemaArm fuel prev data with | .ok _ => 1 | .error _ => 0) +
    (match sorRefArm prev data with | .ok _ => 1 | .error _ => 0)

/-- The (arm, failure) outcomes of the failed `SchemaOrRef` arms. -/
def sorArmErrors (fuel : Nat) (prev : SchemaOrRef) (data : Json) :
    List (String × String) :=
  (match sorSchemaArm fuel prev data with
    | .error e => [("Schema", e)]
    | .ok _ => []) ++
  (match sorRefArm prev data with
    | .error e => [("SchemaReference", e)]
    | .ok _ => [])

/-- The four arm attempts of `ParameterLocation.UnmarshalJSON`. -/
def plArms (prev : ParameterLocation) (data : Json) :
    Except String (Option PathParameter) × Except String (Option QueryParameter) ×
      Except String (Option HeaderParameter) × Except String (Option CookieParameter) :=
  (decArm PathParameter.zero PathParameter.unmarshalJSON prev.PathParameter data,
   decArm QueryParameter.zero QueryParameter.unmarshalJSON prev.QueryParameter data,
   decArm HeaderParameter.zero HeaderParameter.unmarshalJSON prev.HeaderParameter data,
   decArm CookieParameter.zero CookieParameter.unmarshalJSON prev.CookieParameter data)

/-- How many `ParameterLocation` arms accept the payload. -/
def plValidCount (prev : ParameterLocation) (data : Json) : Nat :=
  (match (plArms prev data).1 with | .ok _ => 1 | .error _ => 0) +
    ((match (plArms prev data).2.1 with | .ok _ => 1 | .error _ => 0) +
      ((match (plArms prev data).2.2.1 with | .ok _ => 1 | .error _ => 0) +
        (match (plArms prev data).2.2.2 with | .ok _ => 1 | .error _ => 0)))

/-- The (arm, failure) outcomes of the failed `ParameterLocation` arms. -/
def plArmErrors (prev : ParameterLocation) (data : Json) :
    List (String × String) :=
  (match (plArms prev data).1 with
    | .error e => [("PathParameter", e)]
    | .ok _ => []) ++
  ((match (plArms prev data).2.1 with
    | .error e => [("QueryParameter", e)]
    | .ok _ => []) ++
  ((match (plArms prev data).2.2.1 with
    | .error e => [("HeaderParameter", e)]
    | .ok _ => []) ++
  (match (plArms prev data).2.2.2 with
    | .error e => [("CookieParameter", e)]
    | .ok _ => [])))

/-- C7: a payload carrying both `schema` and `content` matches the declared
forbidden `not` shape, so `SchemaXORContent` decoding fails with the
`not`-constraint error naming the group, even though each of the two arm
shapes alone accepts that very payload; the schema-only payload decodes
successfully into the `HasSchema` arm. -/
theorem schemaXORContent_forbidden_combination :
    SchemaXORContent.unmarshalJSON SchemaXORContent.zero xorBothPayload =
      .error "not constraint failed for SchemaXORContent" ∧
    HasSchema.unmarshalJSON HasSchema.zero xorBothPayload =
      .ok ⟨.obj [("type", .str "string")]⟩ ∧
    HasContent.unmarshalJSON HasContent.zero xorBothPayload =
      .ok ⟨.obj [("a", .obj [])]⟩ ∧
    SchemaXORContent.unmarshalJSON SchemaXORContent.zero xorSchemaOnlyPayload =
      .ok ⟨some ⟨.obj [("type", .str "string")]⟩, none⟩ :=
  ⟨rfl, rfl, rfl, rfl⟩

/-- C9 counterexample: a decode failure of `Parameter` over a payload with
two unrecognized keys returns an error whose entire value is the formatted
message string; the offending-key list exists only inside that text (the Go
code builds every failure with `errors.New`/`fmt.Errorf`), so the error is
not a structured value carrying the keys as fields. -/
theorem error_value_is_formatted_text_cex :
    (Parameter.unmarshalJSONm 20 Parameter.zero paramUnknownPayload).2 =
      some "additional properties not allowed in Parameter: [foo bar]" :=
  rfl

/-- C9 amended: every decode failure is an error value whose formatted
message embeds the relevant diagnostic data — the offending-key list, the
missing required key, the per-arm oneOf outcomes with the valid count, and
the constant-mismatch expected/actual pair — but only as message text. -/
theorem error_messages_embed_diagnostic_data :
    (Parameter.unmarshalJSONm 20 Parameter.zero paramNoNamePayload).2 =
      some "required key missing: name" ∧
    (Parameter.unmarshalJSONm 20 Parameter.zero paramUnknownPayload).2 =
      some "additional properties not allowed in Parameter: [foo bar]" ∧
    ParameterLocation.unmarshalJSON ParameterLocation.zero (.obj []) =
      .error "oneOf constraint failed for ParameterLocation with 3 valid results: map[PathParameter:required key missing: required]" ∧
    PathParameter.unmarshalJSON PathParameter.zero pathArmBadConstPayload =
      .error "bad const value for \"required\" (true expected, false received)" :=
  ⟨rfl, rfl, rfl, rfl⟩

/-- Serializing object members distributes over append with a separating
comma (for nonempty member lists). -/
theorem serializeObj_append (a b : List (String × Json)) (ha : a ≠ []) (hb : b ≠ []) :
    Json.serializeObj (a ++ b) = Json.serializeObj a ++ ',' :: Json.serializeObj b := by
  induction a with
  | nil => exact absurd rfl ha
  | cons x t ih =>
    cases t with
    | nil =>
      cases b with
      | nil => exact absurd rfl hb
      | cons y u => cases x with | mk k v => simp [Json.serializeObj]
    | cons y u =>
      cases x with | mk k v =>
      have h := ih (by simp)
      simp only [List.cons_append] at h ⊢
      simp [Json.serializeObj, h]

/-- A nonempty member list serializes to nonempty bytes. -/
theorem serializeObj_cons_ne_nil (k : String) (v : Json) (fs : List (String × Json)) :
    Json.serializeObj ((k, v) :: fs) ≠ [] := by
  cases fs <;> simp [Json.serializeObj, escString]

/-- The serialization shape of an object value. -/
theorem serialize_obj_eq (fs : List (String × Json)) :
    Json.serialize (.obj fs) = '{' :: Json.serializeObj fs ++ ['}'] := rfl

/-- A nonempty object does not serialize to the empty-object bytes. -/
theorem serialize_obj_ne_empty (k : String) (v : Json) (fs : List (String × Json)) :
    Json.serialize (.obj ((k, v) :: fs)) ≠ emptyObjChars := by
  intro h
  have hlen := congrArg List.length h
  simp only [serialize_obj_eq, emptyObjChars, List.length_cons, List.length_append,
    List.length_nil] at hlen
  exact serializeObj_cons_ne_nil k v fs (List.eq_nil_of_length_eq_zero (by omega))

/-- An object never serializes to the `null` bytes. -/
theorem serialize_obj_ne_null (fs : List (String × Json)) :
    Json.serialize (.obj fs) ≠ nullChars := by
  simp [serialize_obj_eq, nullChars]

/-- A serialized object starts with an opening brace. -/
theorem serialize_obj_head (fs : List (String × Json)) :
    (Json.serialize (.obj fs)).head? = some '{' := by
  simp [serialize_obj_eq]

/-- The bytes after the opening brace of a serialized object. -/
theorem serialize_obj_tail (fs : List (String × Json)) :
    (Json.serialize (.obj fs)).tail = Json.serializeObj fs ++ ['}'] := by
  simp [serialize_obj_eq]

/-- The bytes before the closing brace of a serialized object. -/
theorem serialize_obj_dropLast (fs : List (String × Json)) :
    (Json.serialize (.obj fs)).dropLast = '{' :: Json.serializeObj fs := by
  rw [serialize_obj_eq]
  rw [show ('{' :: Json.serializeObj fs ++ ['}'] : List Char) =
    ('{' :: Json.serializeObj fs) ++ ['}'] by simp]
  rw [List.dropLast_concat]

/-- A serialized object has at least the two braces. -/
theorem serialize_obj_length (fs : List (String × Json)) :
    1 < (Json.serialize (.obj fs)).length := by
  simp [serialize_obj_eq]

/-- An exhausted fragment list with an object accumulator returns it
unchanged (the final close only fires on the 1-byte `3x7b` accumulator). -/
theorem marshalUnionAux_close (acc : List (String × Json)) :
    marshalUnionAux [] (Json.serialize (.obj acc)) true =
      .ok (Json.serialize (.obj acc)) := by
  rw [marshalUnionAux]
  rw [if_neg (by
    intro hc
    have := serialize_obj_length acc
    omega)]

/-- Merging one object-or-null fragment into a nonempty object accumulator
appends its members. -/
theorem marshalUnionAux_step2 (f2 : Json) (h2 : f2.isObjOrNull)
    (acc : List (String × Json)) (ha : acc ≠ []) :
    marshalUnionAux [.ok (Json.serialize f2)] (Json.serialize (.obj acc)) true =
      .ok (Json.serialize (.obj (acc ++ f2.objFields))) := by
  cases f2 with
  | null =>
    rw [show Json.serialize .null = nullChars from rfl]
    rw [marshalUnionAux]
    rw [if_neg (by decide : ¬(nullChars = emptyObjChars)), if_pos rfl]
    rw [marshalUnionAux_close]
    simp [Json.objFields]
  | obj gs =>
    cases gs with
    | nil =>
      rw [show Json.serialize (.obj []) = emptyObjChars from rfl]
      rw [marshalUnionAux]
      rw [if_pos rfl]
      rw [marshalUnionAux_close]
      simp [Json.objFields]
    | cons kv fs =>
      obtain ⟨k, v⟩ := kv
      rw [marshalUnionAux]
      rw [if_neg (serialize_obj_ne_empty k v fs), if_neg (serialize_obj_ne_null _)]
      rw [if_neg (by simp [serialize_obj_head])]
      rw [if_neg (by decide : ¬((!true : Bool) = true))]
      rw [if_pos (serialize_obj_length acc)]
      rw [serialize_obj_dropLast, serialize_obj_tail]
      cases acc with
      | nil => exact absurd rfl ha
      | cons a t =>
        have key : ('{' :: Json.serializeObj (a :: t) ++ [','] ++
            (Json.serializeObj ((k, v) :: fs) ++ ['}']) : List Char) =
            Json.serialize (.obj ((a :: t) ++ (k, v) :: fs)) := by
          rw [serialize_obj_eq]
          rw [serializeObj_append (a :: t) ((k, v) :: fs) (by simp) (by simp)]
          simp
        rw [key, marshalUnionAux_close]
        simp [Json.objFields]
  | bool b => exact h2.elim
  | num n => exact h2.elim
  | str s8 => exact h2.elim
  | arr xs => exact h2.elim

/-- Merging one object-or-null fragment into the fresh accumulator yields
that fragment's members. -/
theorem marshalUnionAux_stepEmpty (f2 : Json) (h2 : f2.isObjOrNull) :
    marshalUnionAux [.ok (Json.serialize f2)] ['{'] true =
      .ok (Json.serialize (.obj f2.objFields)) := by
  cases f2 with
  | null =>
    rw [show Json.serialize .null = nullChars from rfl]
    rw [marshalUnionAux]
    rw [if_neg (by decide : ¬(nullChars = emptyObjChars)), if_pos rfl]
    rw [marshalUnionAux]
    simp [Json.objFields]
    rfl
  | obj gs =>
    cases gs with
    | nil =>
      rw [show Json.serialize (.obj []) = emptyObjChars from rfl]
      rw [marshalUnionAux]
      rw [if_pos rfl]
      rw [marshalUnionAux]
      simp [Json.objFields]
      rfl
    | cons kv fs =>
      obtain ⟨k, v⟩ := kv
      rw [marshalUnionAux]
      rw [if_neg (serialize_obj_ne_empty k v fs), if_neg (serialize_obj_ne_null _)]
      rw [if_neg (by simp [serialize_obj_head])]
      rw [if_neg (by decide : ¬((!true : Bool) = true))]
      rw [if_neg (by decide : ¬((['{'] : List Char).length > 1))]
      rw [serialize_obj_tail]
      have key : (['{'] ++ (Json.serializeObj ((k, v) :: fs) ++ ['}']) : List Char) =
          Json.serialize (.obj ((k, v) :: fs)) := by
        rw [serialize_obj_eq]
        simp
      rw [key, marshalUnionAux_close]
      simp [Json.objFields]
  | bool b => exact h2.elim
  | num n => exact h2.elim
  | str s8 => exact h2.elim
  | arr xs => exact h2.elim

/-- The byte-level `marshalUnion` of two object-or-null fragments is the
serialization of the merged object, members in fragment order. -/
theorem marshalUnion_two_frags (f1 f2 : Json) (h1 : f1.isObjOrNull) (h2 : f2.isObjOrNull) :
    marshalUnion [.ok (Json.serialize f1), .ok (Json.serialize f2)] =
      .ok (Json.serialize (.obj (f1.objFields ++ f2.objFields))) := by
  unfold marshalUnion
  cases f1 with
  | null =>
    rw [show Json.serialize .null = nullChars from rfl]
    rw [marshalUnionAux]
    rw [if_neg (by decide : ¬(nullChars = emptyObjChars)), if_pos rfl]
    rw [marshalUnionAux_stepEmpty f2 h2]
    simp [Json.objFields]
  | obj gs =>
    cases gs with
    | nil =>
      rw [show Json.serialize (.obj []) = emptyObjChars from rfl]
      rw [marshalUnionAux]
      rw [if_pos rfl]
      rw [marshalUnionAux_stepEmpty f2 h2]
      simp [Json.objFields]
    | cons kv fs =>
      obtain ⟨k, v⟩ := kv
      rw [marshalUnionAux]
      rw [if_neg (serialize_obj_ne_empty k v fs), if_neg (serialize_obj_ne_null _)]
      rw [if_neg (by simp [serialize_obj_head])]
      rw [if_neg (by decide : ¬((!true : Bool) = true))]
      rw [if_neg (by decide : ¬((['{'] : List Char).length > 1))]
      rw [serialize_obj_tail]
      have key : (['{'] ++ (Json.serializeObj ((k, v) :: fs) ++ ['}']) : List Char) =
          Json.serialize (.obj ((k, v) :: fs)) := by
        rw [serialize_obj_eq]
        simp
      rw [key, marshalUnionAux_step2 f2 h2 ((k, v) :: fs) (by simp)]
      simp [Json.objFields]
  | bool b => exact h1.elim
  | num n => exact h1.elim
  | str s8 => exact h1.elim
  | arr xs => exact h1.elim

/-- C2: a union decode tries every arm unconditionally and succeeds exactly
when one arm accepts; on zero or several acceptances it returns the error
carrying the valid-result count together with each failed arm's own error
(shown for the 2-arm `SchemaOrRef` and the 4-arm `ParameterLocation`;
successful arms are represented by the count and their absence from the
failure map). -/
theorem variant_resolver_exactly_one (fuel : Nat) (prevS : SchemaOrRef)
    (prevL : ParameterLocation) (dataS dataL : Json) :
    ((∃ s, decSchemaOrRef (fuel+1) prevS dataS = .ok s) ↔
      sorValidCount fuel prevS dataS = 1) ∧
    (sorValidCount fuel prevS dataS ≠ 1 →
      decSchemaOrRef (fuel+1) prevS dataS =
        .error (oneOfMsg "SchemaOrRef" (sorValidCount fuel prevS dataS)
          (sorArmErrors fuel prevS dataS))) ∧
    ((∃ l, ParameterLocation.unmarshalJSON prevL dataL = .ok l) ↔
      plValidCount prevL dataL = 1) ∧
    (plValidCount prevL dataL ≠ 1 →
      ParameterLocation.unmarshalJSON prevL dataL =
        .error (oneOfMsg "ParameterLocation" (plValidCount prevL dataL)
          (plArmErrors prevL dataL))) := by
  have hS : ((∃ s, decSchemaOrRef (fuel+1) prevS dataS = .ok s) ↔
      sorValidCount fuel prevS dataS = 1) ∧
      (sorValidCount fuel prevS dataS ≠ 1 →
        decSchemaOrRef (fuel+1) prevS dataS =
          .error (oneOfMsg "SchemaOrRef" (sorValidCount fuel prevS dataS)
            (sorArmErrors fuel prevS dataS))) := by
    have hd : decSchemaOrRef (fuel+1) prevS dataS =
        (let r1 := sorSchemaArm fuel prevS dataS
         let r2 := sorRefArm prevS dataS
         let errs := (match r1 with
           | .error e => [("Schema", e)]
           | .ok _ => []) ++ (match r2 with
           | .error e => [("SchemaReference", e)]
           | .ok _ => [])
         let valid := (match r1 with | .ok _ => 1 | .error _ => 0) +
           (match r2 with | .ok _ => 1 | .error _ => 0)
         if valid = 1 then
           .ok (SchemaOrRef.mk (r1.toOption.getD none) (r2.toOption.getD none))
         else
           .error (oneOfMsg "SchemaOrRef" valid errs)) := rfl
    rw [hd]
    unfold sorValidCount sorArmErrors
    cases h1 : sorSchemaArm fuel prevS dataS <;>
      cases h2 : sorRefArm prevS dataS <;>
        simp [h1, h2]
  have hL : ((∃ l, ParameterLocation.unmarshalJSON prevL dataL = .ok l) ↔
      plValidCount prevL dataL = 1) ∧
      (plValidCount prevL dataL ≠ 1 →
        ParameterLocation.unmarshalJSON prevL dataL =
          .error (oneOfMsg "ParameterLocation" (plValidCount prevL dataL)
            (plArmErrors prevL dataL))) := by
    have hd : ParameterLocation.unmarshalJSON prevL dataL =
        (let r1 := (plArms prevL dataL).1
         let r2 := (plArms prevL dataL).2.1
         let r3 := (plArms prevL dataL).2.2.1
         let r4 := (plArms prevL dataL).2.2.2
         let errs := (match r1 with
           | .error e => [("PathParameter", e)]
           | .ok _ => []) ++ (match r2 with
           | .error e => [("QueryParameter", e)]
           | .ok _ => []) ++ (match r3 with
           | .error e => [("HeaderParameter", e)]
           | .ok _ => []) ++ (match r4 with
           | .error e => [("CookieParameter", e)]
           | .ok _ => [])
         let valid := (match r1 with | .ok _ => 1 | .error _ => 0) +
           ((match r2 with | .ok _ => 1 | .error _ => 0) +
             ((match r3 with | .ok _ => 1 | .error _ => 0) +
               (match r4 with | .ok _ => 1 | .error _ => 0)))
         if valid = 1 then
           .ok ⟨r1.toOption.getD none, r2.toOption.getD none,
             r3.toOption.getD none, r4.toOption.getD none⟩
         else
           .error (oneOfMsg "ParameterLocation" valid errs)) := rfl
    rw [hd]
    unfold plValidCount plArmErrors
    cases h1 : (plArms prevL dataL).1 <;>
      cases h2 : (plArms prevL dataL).2.1 <;>
        cases h3 : (plArms prevL dataL).2.2.1 <;>
          cases h4 : (plArms prevL dataL).2.2.2 <;>
            simp [h1, h2, h3, h4]
  exact ⟨hS.1, hS.2, hL.1, hL.2⟩

/-- C2 witness: a payload both `SchemaOrRef` arms accept (a JSON `null`
sets either arm pointer to nil without error) fails with the arity-2
message; a payload neither arm accepts fails with the arity-0 message
enumerating both failures; the path scenario payload is accepted by exactly
one `ParameterLocation` arm. -/
theorem variant_resolver_exactly_one_witness :
    decSchemaOrRef 11 SchemaOrRef.zero .null =
      .error "oneOf constraint failed for SchemaOrRef with 2 valid results: map[]" ∧
    decSchemaOrRef 11 SchemaOrRef.zero (.num 5) =
      .error "oneOf constraint failed for SchemaOrRef with 0 valid results: map[Schema:json: cannot unmarshal into Go value of type Schema SchemaReference:json: cannot unmarshal into Go value of type SchemaReference]" ∧
    (∃ l, ParameterLocation.unmarshalJSON ParameterLocation.zero pathArmPayload = .ok l) := by
  refine ⟨?_, ?_, ?_⟩
  · exact ((variant_resolver_exactly_one 10 SchemaOrRef.zero ParameterLocation.zero
      .null .null).2.1 (by decide)).trans rfl
  · exact ((variant_resolver_exactly_one 10 SchemaOrRef.zero ParameterLocation.zero
      (.num 5) .null).2.1 (by decide)).trans rfl
  · exact (variant_resolver_exactly_one 10 SchemaOrRef.zero ParameterLocation.zero
      .null pathArmPayload).2.2.1.mpr (by decide)

/-- C3 counterexample: on the path arm the constant-tagged `required` key
is also one of the arm's required keys, so a payload in which that tag key
is absent is rejected with the required-key error instead of the tag being
accepted as implied by the arm. -/
theorem pathParameter_absent_required_tag_cex :
    PathParameter.unmarshalJSON PathParameter.zero pathArmMissingRequiredPayload =
      .error "required key missing: required" := rfl

/-- C3 amended: once the structural decode and the required-key check pass,
a present `in`/`required` tag must match the fixed literal byte-for-byte or
decoding fails naming expected and received bytes; absent tags pass the
constant checks (though an absent `required` already fails the earlier
required-key check); the scenario payloads select the path arm and fail the
`required` constant respectively; and encoding unconditionally emits the
`constPathParameter` fragment before the node's own fields. -/
theorem pathParameter_constant_enforcement :
    (∀ (prev : PathParameter) (fs : RawMap) (st : Option PathParameterStyle) (v : Json),
      decOptEnumF pathParameterStyleValues "PathParameterStyle" prev.Style fs "style" = .ok st →
      firstMissing requireKeysPathParameter fs = none →
      RawMap.lookup fs "in" = some v →
      Json.serialize v ≠ "\"path\"".data →
      PathParameter.unmarshalJSON prev (.obj fs) =
        .error (badConstMsg "in" "\"path\"" (String.mk (Json.serialize v)))) ∧
    (∀ (prev : PathParameter) (fs : RawMap) (st : Option PathParameterStyle) (w : Json),
      decOptEnumF pathParameterStyleValues "PathParameterStyle" prev.Style fs "style" = .ok st →
      firstMissing requireKeysPathParameter fs = none →
      constOk fs "in" "\"path\"".data →
      RawMap.lookup fs "required" = some w →
      Json.serialize w ≠ "true".data →
      PathParameter.unmarshalJSON prev (.obj fs) =
        .error (badConstMsg "required" "true" (String.mk (Json.serialize w)))) ∧
    (∀ (prev : PathParameter) (fs : RawMap) (st : Option PathParameterStyle),
      decOptEnumF pathParameterStyleValues "PathParameterStyle" prev.Style fs "style" = .ok st →
      firstMissing requireKeysPathParameter fs = none →
      constOk fs "in" "\"path\"".data →
      constOk fs "required" "true".data →
      PathParameter.unmarshalJSON prev (.obj fs) = .ok (PathParameter.mk st)) ∧
    ParameterLocation.unmarshalJSON ParameterLocation.zero pathArmPayload =
      .ok ⟨some ⟨none⟩, none, none, none⟩ ∧
    PathParameter.unmarshalJSON PathParameter.zero pathArmBadConstPayload =
      .error (badConstMsg "required" "true" "false") ∧
    (∀ (p : PathParameter) (sf : List (String × Json)),
      PathParameter.structJson p = .ok (.obj sf) →
      PathParameter.marshalJSON p =
        .ok (Json.serialize (.obj ([("in", .str "path"), ("required", .bool true)] ++ sf)))) := by
  refine ⟨?_, ?_, ?_, rfl, rfl, ?_⟩
  · intro prev fs st v hs hr hin hbad
    simp [PathParameter.unmarshalJSON, hs, hr, hin, hbad, Json.rawMap, Except.map,
      bind, Except.bind]
  · intro prev fs st w hs hr hinok hw hwbad
    cases hin : RawMap.lookup fs "in" with
    | none =>
      simp [PathParameter.unmarshalJSON, hs, hr, hin, Json.rawMap, Except.map,
        bind, Except.bind, PathParameter.unmarshalJSON.pathParamRequiredConst, hw, hwbad]
    | some v =>
      have hv := hinok v hin
      simp [PathParameter.unmarshalJSON, hs, hr, hin, hv, Json.rawMap, Except.map,
        bind, Except.bind, PathParameter.unmarshalJSON.pathParamRequiredConst, hw, hwbad]
  · intro prev fs st hs hr hinok hrok
    cases hin : RawMap.lookup fs "in" with
    | none =>
      cases hw : RawMap.lookup fs "required" with
      | none =>
        simp [PathParameter.unmarshalJSON, hs, hr, hin, Json.rawMap, Except.map,
          bind, Except.bind, PathParameter.unmarshalJSON.pathParamRequiredConst, hw]
      | some w =>
        have hv := hrok w hw
        simp [PathParameter.unmarshalJSON, hs, hr, hin, Json.rawMap, Except.map,
          bind, Except.bind, PathParameter.unmarshalJSON.pathParamRequiredConst, hw, hv]
    | some v =>
      have hv := hinok v hin
      cases hw : RawMap.lookup fs "required" with
      | none =>
        simp [PathParameter.unmarshalJSON, hs, hr, hin, hv, Json.rawMap, Except.map,
          bind, Except.bind, PathParameter.unmarshalJSON.pathParamRequiredConst, hw]
      | some w =>
        have hv2 := hrok w hw
        simp [PathParameter.unmarshalJSON, hs, hr, hin, hv, Json.rawMap, Except.map,
          bind, Except.bind, PathParameter.unmarshalJSON.pathParamRequiredConst, hw, hv2]
  · intro p sf hsf
    unfold PathParameter.marshalJSON
    rw [hsf]
    exact marshalUnion_two_frags constPathParameter (.obj sf) trivial trivial

/-- C3 witness: a present `in` tag with the wrong literal fails the path
arm's constant check with the expected/received message, and the encode of
a style-free path arm emits exactly the constant fragment. -/
theorem pathParameter_constant_enforcement_witness :
    PathParameter.unmarshalJSON PathParameter.zero
      (.obj [("in", .str "query"), ("required", .bool true)]) =
      .error (badConstMsg "in" "\"path\"" "\"query\"") ∧
    PathParameter.marshalJSON PathParameter.zero =
      .ok (Json.serialize (.obj [("in", .str "path"), ("required", .bool true)])) := by
  constructor
  · exact pathParameter_constant_enforcement.1 PathParameter.zero
      [("in", .str "query"), ("required", .bool true)] none (.str "query")
      rfl rfl rfl (by decide)
  · have h := pathParameter_constant_enforcement.2.2.2.2.2 PathParameter.zero [] rfl
    simpa using h

/-- C6 counterexample: `marshalUnion` accepts a second single-byte scalar
fragment identical to the scalar already adopted, so a non-object fragment
is accepted while the accumulator is no longer empty (the accumulator holds
`5` when the second `5` arrives), refuting the claim that a scalar fragment
is accepted only while the accumulator is still empty. -/
theorem marshalUnion_scalar_after_scalar_cex :
    marshalUnion [.ok ['5'], .ok ['5']] = .ok ['5'] ∧
    marshalUnionAux [.ok ['5']] ['5'] false = .ok ['5'] :=
  ⟨rfl, rfl⟩

/-- Every stage of `Parameter.UnmarshalJSON` either fails without touching
the receiver or runs to the final assignment: the decode works on a local
copy `mp` and only the last statement `*i = ...` writes through the
receiver. -/
theorem parameter_unmarshal_state_or_success (fuel : Nat) (p : Parameter) (data : Json) :
    (Parameter.unmarshalJSONm fuel p data).1 = p ∨
      (Parameter.unmarshalJSONm fuel p data).2 = none := by
  unfold Parameter.unmarshalJSONm
  cases hs : Parameter.structDec fuel p data with
  | error e1 => simp
  | ok mp =>
    cases hx : decArm SchemaXORContent.zero SchemaXORContent.unmarshalJSON
        mp.SchemaXORContent data with
    | error e1 => simp [hx]
    | ok sxc =>
      simp only [hx]
      cases hl : decArm ParameterLocation.zero ParameterLocation.unmarshalJSON
          mp.Location data with
      | error e1 => simp [hl]
      | ok loc =>
        simp only [hl]
        cases hm : firstMissing requireKeysParameter (Json.rawMap data) with
        | some k => simp [hm]
        | none =>
          simp only [hm]
          split <;> split <;>
            first
            | exact Or.inr rfl
            | exact Or.inl rfl

/-- C10: `Parameter.UnmarshalJSON` stages its work in a local value and
assigns the receiver only as its final statement, so whenever it returns an
error the receiver is exactly the value it held before the call. -/
theorem parameter_unmarshal_atomic (fuel : Nat) (p : Parameter) (data : Json)
    (e : String) (h : (Parameter.unmarshalJSONm fuel p data).2 = some e) :
    (Parameter.unmarshalJSONm fuel p data).1 = p := by
  rcases parameter_unmarshal_state_or_success fuel p data with h1 | h1
  · exact h1
  · rw [h1] at h
    exact absurd h (by simp)

/-- C10 witness: a non-object payload makes `Parameter.UnmarshalJSON` fail
with the struct-decode type error while the receiver keeps its prior
(zero) value. -/
theorem parameter_unmarshal_atomic_witness :
    (Parameter.unmarshalJSONm 5 Parameter.zero (Json.num 3)).2 =
      some (jsonTypeErr "Parameter") ∧
    (Parameter.unmarshalJSONm 5 Parameter.zero (Json.num 3)).1 = Parameter.zero :=
  ⟨rfl, parameter_unmarshal_atomic 5 Parameter.zero (Json.num 3)
    (jsonTypeErr "Parameter") rfl⟩

/-- C5: once the staged decodes and the required-key check pass, decoding a
`Parameter` succeeds exactly when every leftover key (after deleting the
known keys and routing the `^x-` bucket) is consumed, and otherwise fails
with one error listing all remaining unrecognized keys together. -/
theorem parameter_unrecognized (fuel : Nat) (p : Parameter) (data : Json)
    (mp : Parameter) (sxc : Option SchemaXORContent) (loc : Option ParameterLocation)
    (hs : Parameter.structDec fuel p data = .ok mp)
    (hx : decArm SchemaXORContent.zero SchemaXORContent.unmarshalJSON
      mp.SchemaXORContent data = .ok sxc)
    (hl : decArm ParameterLocation.zero ParameterLocation.unmarshalJSON
      mp.Location data = .ok loc)
    (hm : firstMissing requireKeysParameter (Json.rawMap data) = none) :
    ((Parameter.unmarshalJSONm fuel p data).2 = none ↔
      (routeX ((Json.rawMap data).eraseKeys knownKeysParameter) mp.MapOfAnything).2 = []) ∧
    ((routeX ((Json.rawMap data).eraseKeys knownKeysParameter) mp.MapOfAnything).2 ≠ [] →
      (Parameter.unmarshalJSONm fuel p data).2 =
        some (addPropsMsg "Parameter"
          (((routeX ((Json.rawMap data).eraseKeys knownKeysParameter) mp.MapOfAnything).2).map Prod.fst))) := by
  unfold Parameter.unmarshalJSONm
  simp only [hs]
  simp only [hx]
  simp only [hl]
  simp only [hm]
  split
  · constructor
    · constructor
      · intro h2
        by_cases hempty : (routeX ((Json.rawMap data).eraseKeys knownKeysParameter)
            mp.MapOfAnything).2.isEmpty
        · exact List.isEmpty_iff.mp hempty
        · rw [if_neg hempty] at h2
          simp at h2
      · intro h2
        rw [if_pos (by simp [List.isEmpty_iff, h2])]
    · intro hne
      rw [if_neg (by simp [List.isEmpty_iff]; exact hne)]
  · constructor
    · constructor
      · intro h2
        by_cases hempty : (routeX ((Json.rawMap data).eraseKeys knownKeysParameter)
            mp.MapOfAnything).2.isEmpty
        · exact List.isEmpty_iff.mp hempty
        · rw [if_neg hempty] at h2
          simp at h2
      · intro h2
        rw [if_pos (by simp [List.isEmpty_iff, h2])]
    · intro hne
      rw [if_neg (by simp [List.isEmpty_iff]; exact hne)]

/-- C5 witness: the clean `content`-based payload decodes with no error,
and the same payload extended with the two unrecognized keys `foo` and
`bar` (plus a consumed `x-a` bucket key) fails with the single
additional-properties error listing exactly `[foo bar]`. -/
theorem parameter_unrecognized_witness :
    ((Parameter.unmarshalJSONm 20 Parameter.zero paramContentPayload).2 = none) ∧
    ((Parameter.unmarshalJSONm 20 Parameter.zero paramUnknownContentPayload).2 =
      some (addPropsMsg "Parameter" ["foo", "bar"])) :=
  ⟨(parameter_unrecognized 20 Parameter.zero paramContentPayload mpContentFixture
      sxcContentFixture locQueryFixture rfl rfl rfl rfl).1.mpr rfl,
    ((parameter_unrecognized 20 Parameter.zero paramUnknownContentPayload mpContentFixture
      sxcContentFixture locQueryFixture rfl rfl rfl rfl).2 (fun h => nomatch h)).trans rfl⟩

/-- The `required key missing` message never coincides with an
`additional properties` message (their first characters differ). -/
theorem requiredMsg_ne_addPropsMsg (k ty : String) (ks : List String) :
    requiredMsg k ≠ addPropsMsg ty ks := by
  intro h
  have h1 : (requiredMsg k).data.head? = some 'r' := rfl
  have h2 : (addPropsMsg ty ks).data.head? = some 'a' := rfl
  rw [h, h2] at h1
  simp at h1

/-- The key reported by the required-key scan is indeed absent from the
raw payload. -/
theorem firstMissing_some_not_has (req : List String) (m : RawMap) (k : String)
    (h : firstMissing req m = some k) : RawMap.has m k = false := by
  have := List.find?_some h
  simpa using this

/-- C4 counterexample: removing the required `in` key from a parameter
payload does not produce the `required key missing: in` error — the
location-union decode runs before the required-key check and fails first
with a oneOf arity error (three arms accept once the discriminating `in`
is gone). -/
theorem required_key_presence_cex :
    RawMap.has (Json.rawMap paramNoInPayload) "in" = false ∧
    (Parameter.unmarshalJSONm 20 Parameter.zero paramNoInPayload).2 =
      some (oneOfMsg "ParameterLocation" 3 [("PathParameter", requiredMsg "required")]) ∧
    (Parameter.unmarshalJSONm 20 Parameter.zero paramNoInPayload).2 ≠
      some (requiredMsg "in") := by
  refine ⟨rfl, rfl, ?_⟩
  intro h
  have hbig : (Parameter.unmarshalJSONm 20 Parameter.zero paramNoInPayload).2 =
      some (oneOfMsg "ParameterLocation" 3 [("PathParameter", requiredMsg "required")]) := rfl
  rw [hbig] at h
  have h3 := Option.some.inj h
  have a1 : (oneOfMsg "ParameterLocation" 3
      [("PathParameter", requiredMsg "required")]).data.head? = some 'o' := rfl
  rw [h3] at a1
  have a2 : (requiredMsg "in").data.head? = some 'r' := rfl
  rw [a2] at a1
  simp at a1

/-- C4 amended: once the staged decodes pass, the required-key loop fails
with `required key missing: k` exactly for the first required key whose
entry is absent from the raw payload — presence of the key (with any
value, `null` included) satisfies the check — and when every required key
is present no later stage can produce a required-key error; for `License`
the same holds after its structural decode, and a required `name` present
as `null` decodes successfully. -/
theorem required_key_presence :
    (∀ (fuel : Nat) (p : Parameter) (data : Json) (mp : Parameter)
        (sxc : Option SchemaXORContent) (loc : Option ParameterLocation),
      Parameter.structDec fuel p data = .ok mp →
      decArm SchemaXORContent.zero SchemaXORContent.unmarshalJSON
        mp.SchemaXORContent data = .ok sxc →
      decArm ParameterLocation.zero ParameterLocation.unmarshalJSON
        mp.Location data = .ok loc →
      (∀ k, firstMissing requireKeysParameter (Json.rawMap data) = some k →
        Parameter.unmarshalJSONm fuel p data = (p, some (requiredMsg k)) ∧
          RawMap.has (Json.rawMap data) k = false) ∧
      (firstMissing requireKeysParameter (Json.rawMap data) = none →
        ∀ k, (Parameter.unmarshalJSONm fuel p data).2 ≠ some (requiredMsg k))) ∧
    (∀ (prev : License) (data : Json) (ml : License),
      License.structDec prev data = .ok ml →
      ∀ k, firstMissing requireKeysLicense (Json.rawMap data) = some k →
        License.unmarshalJSON prev data = .error (requiredMsg k) ∧
          RawMap.has (Json.rawMap data) k = false) ∧
    License.unmarshalJSON License.zero licenseNameNullPayload = .ok ⟨"", none, []⟩ := by
  refine ⟨?_, ?_, rfl⟩
  · intro fuel p data mp sxc loc hs hx hl
    constructor
    · intro k hk
      refine ⟨?_, firstMissing_some_not_has _ _ _ hk⟩
      unfold Parameter.unmarshalJSONm
      simp only [hs]
      simp only [hx]
      simp only [hl]
      simp only [hk]
    · intro hm k
      unfold Parameter.unmarshalJSONm
      simp only [hs]
      simp only [hx]
      simp only [hl]
      simp only [hm]
      split <;> split
      · simp
      · simp
        exact fun hcontra => (requiredMsg_ne_addPropsMsg _ _ _ hcontra.symm).elim
      · simp
      · simp
        exact fun hcontra => (requiredMsg_ne_addPropsMsg _ _ _ hcontra.symm).elim
  · intro prev data ml hs k hk
    refine ⟨?_, firstMissing_some_not_has _ _ _ hk⟩
    unfold License.unmarshalJSON
    simp only [hs]
    simp only [bind, Except.bind]
    simp only [hk]

/-- C4 witness: a parameter payload lacking its required `name` fails with
exactly `required key missing: name` and an unchanged receiver, while a
license whose required `name` is present as `null` decodes successfully. -/
theorem required_key_presence_witness :
    Parameter.unmarshalJSONm 20 Parameter.zero paramNoNameContentPayload =
      (Parameter.zero, some (requiredMsg "name")) ∧
    RawMap.has (Json.rawMap paramNoNameContentPayload) "name" = false ∧
    License.unmarshalJSON License.zero licenseNameNullPayload = .ok ⟨"", none, []⟩ := by
  have h := required_key_presence
  refine ⟨((h.1 20 Parameter.zero paramNoNameContentPayload mpNoNameFixture
      sxcContentFixture locQueryFixture rfl rfl rfl).1 "name" rfl).1, ?_, h.2.2⟩
  exact ((h.1 20 Parameter.zero paramNoNameContentPayload mpNoNameFixture
      sxcContentFixture locQueryFixture rfl rfl rfl).1 "name" rfl).2

/-- Inversion of a successful `Except` bind. -/
theorem except_bind_ok {α β ε : Type} {x : Except ε α} {f : α → Except ε β} {b : β}
    (h : x >>= f = .ok b) : ∃ a, x = .ok a ∧ f a = .ok b := by
  cases x with
  | error e => simp [bind, Except.bind] at h
  | ok a => exact ⟨a, rfl, by simpa [bind, Except.bind] using h⟩

/-- The `Example` field produced by the structural decode: absent keeps the
receiver value, `null` clears the pointer, any other value is stored. -/
theorem parameter_structDec_example (fuel : Nat) (prev mp : Parameter) (fs : RawMap)
    (h : Parameter.structDec fuel prev (.obj fs) = .ok mp) :
    mp.Example = (match RawMap.lookup fs "example" with
      | none => prev.Example
      | some .null => none
      | some v => some v) := by
  unfold Parameter.structDec at h
  obtain ⟨name, h1, h⟩ := except_bind_ok h
  obtain ⟨inv, h2, h⟩ := except_bind_ok h
  obtain ⟨description, h3, h⟩ := except_bind_ok h
  obtain ⟨required, h4, h⟩ := except_bind_ok h
  obtain ⟨deprecated, h5, h⟩ := except_bind_ok h
  obtain ⟨aev, h6, h⟩ := except_bind_ok h
  obtain ⟨style, h7, h⟩ := except_bind_ok h
  obtain ⟨explode, h8, h⟩ := except_bind_ok h
  obtain ⟨ar, h9, h⟩ := except_bind_ok h
  obtain ⟨schema, h10, h⟩ := except_bind_ok h
  obtain ⟨content, h11, h⟩ := except_bind_ok h
  obtain ⟨examplev, h12, h⟩ := except_bind_ok h
  obtain ⟨examples, h13, h⟩ := except_bind_ok h
  cases h
  dsimp only
  unfold decOptJsonF at h12
  cases hl : RawMap.lookup fs "example" with
  | none =>
    rw [hl] at h12
    simp at h12
    simp [h12]
  | some v =>
    rw [hl] at h12
    cases v with
    | null =>
      simp only [Except.ok.injEq] at h12
      simp [h12]
    | bool b =>
      simp only [Except.ok.injEq] at h12
      simp [h12]
    | num n =>
      simp only [Except.ok.injEq] at h12
      simp [h12]
    | str s =>
      simp only [Except.ok.injEq] at h12
      simp [h12]
    | arr xs =>
      simp only [Except.ok.injEq] at h12
      simp [h12]
    | obj ms =>
      simp only [Except.ok.injEq] at h12
      simp [h12]



/-- Membership in an `omitempty` string member fragment. -/
theorem mem_optStrFld_iff (k : String) (o : Option String) (kv : String × Json) :
    kv ∈ optStrFld k o ↔ ∃ s, o = some s ∧ kv = (k, .str s) := by
  cases o <;> simp [optStrFld]

/-- Membership in an `omitempty` bool member fragment. -/
theorem mem_optBoolFld_iff (k : String) (o : Option Bool) (kv : String × Json) :
    kv ∈ optBoolFld k o ↔ ∃ b, o = some b ∧ kv = (k, .bool b) := by
  cases o <;> simp [optBoolFld]

/-- Membership in an `omitempty` nullable-pointer member fragment. -/
theorem mem_optJsonFld_iff (k : String) (o : Option Json) (kv : String × Json) :
    kv ∈ optJsonFld k o ↔ ∃ w, o = some w ∧ kv = (k, w) := by
  cases o <;> simp [optJsonFld]

/-- C8: tri-state presence of `Parameter.Example` is preserved: on a
successful decode from the zero receiver an absent `example` key leaves the
field unset, `"example": null` stores the present-null marker, and any
other value is stored as-is; on encode the known-field fragment carries an
`example` member exactly when the field is set, re-emitting `null` for the
present-null state, so present-null is never collapsed to absent. -/
theorem example_tristate_preserved :
    (∀ (fuel : Nat) (fs : RawMap) (mp : Parameter)
        (sxc : Option SchemaXORContent) (loc : Option ParameterLocation),
      Parameter.structDec fuel Parameter.zero (.obj fs) = .ok mp →
      decArm SchemaXORContent.zero SchemaXORContent.unmarshalJSON
        mp.SchemaXORContent (.obj fs) = .ok sxc →
      decArm ParameterLocation.zero ParameterLocation.unmarshalJSON
        mp.Location (.obj fs) = .ok loc →
      firstMissing requireKeysParameter (Json.rawMap (.obj fs)) = none →
      (Parameter.unmarshalJSONm fuel Parameter.zero (.obj fs)).2 = none →
      ((RawMap.lookup fs "example" = none →
        (Parameter.unmarshalJSONm fuel Parameter.zero (.obj fs)).1.Example = none) ∧
      (RawMap.lookup fs "example" = some .null →
        (Parameter.unmarshalJSONm fuel Parameter.zero (.obj fs)).1.Example = some .null) ∧
      (∀ v, RawMap.lookup fs "example" = some v → v ≠ .null →
        (Parameter.unmarshalJSONm fuel Parameter.zero (.obj fs)).1.Example = some v))) ∧
    (∀ (fuel : Nat) (p : Parameter) (j : Json),
      Parameter.structJson fuel p = .ok j →
      ∀ v, ("example", v) ∈ j.objFields ↔ p.Example = some v) := by
  constructor
  · intro fuel fs mp sxc loc hs hx hl hm hsucc
    have hex := parameter_structDec_example fuel Parameter.zero mp fs hs
    unfold Parameter.unmarshalJSONm at hsucc ⊢
    simp only [hs] at hsucc ⊢
    simp only [hx] at hsucc ⊢
    simp only [hl] at hsucc ⊢
    simp only [hm] at hsucc ⊢
    refine ⟨?_, ?_, ?_⟩
    · intro hlk
      rw [hlk] at hex
      have hno : mp.Example = none := by simpa [Parameter.zero] using hex
      cases hr : ((routeX (fs.eraseKeys knownKeysParameter) mp.MapOfAnything).2).isEmpty with
      | false => simp [hno, RawMap.has, Json.rawMap, hlk, hr] at hsucc
      | true => simp [hno, RawMap.has, Json.rawMap, hlk, hr]
    · intro hlk
      rw [hlk] at hex
      have hno : mp.Example = none := by simpa using hex
      cases hr : ((routeX (fs.eraseKeys knownKeysParameter) mp.MapOfAnything).2).isEmpty with
      | false => simp [hno, RawMap.has, Json.rawMap, hlk, hr] at hsucc
      | true => simp [hno, RawMap.has, Json.rawMap, hlk, hr]
    · intro v hlk hv
      rw [hlk] at hex
      have hval : mp.Example = some v := by
        rw [hex]
        cases v <;> first | exact absurd rfl hv | rfl
      cases hr : ((routeX (fs.eraseKeys knownKeysParameter) mp.MapOfAnything).2).isEmpty with
      | false => simp [hval, RawMap.has, Json.rawMap, hlk, hr] at hsucc
      | true => simp [hval, RawMap.has, Json.rawMap, hlk, hr]
  · intro fuel p j hj v
    unfold Parameter.structJson at hj
    obtain ⟨inJ, e1, hj⟩ := except_bind_ok hj
    obtain ⟨schemaFld, e2, hj⟩ := except_bind_ok hj
    obtain ⟨contentFld, e3, hj⟩ := except_bind_ok hj
    obtain ⟨examplesFldv, e4, hj⟩ := except_bind_ok hj
    cases hj
    have hsch : ∀ w, ("example", w) ∉ schemaFld := by
      intro w hw
      cases hps : p.Schema with
      | none =>
        rw [hps] at e2
        simp only [Except.ok.injEq] at e2
        rw [← e2] at hw
        simp at hw
      | some s =>
        rw [hps] at e2
        dsimp only at e2
        cases hms : marshalSchemaOrRef fuel s with
        | error e =>
          rw [hms] at e2
          simp [Except.map] at e2
        | ok jj =>
          rw [hms] at e2
          simp only [Except.map, Except.ok.injEq] at e2
          rw [← e2] at hw
          simp at hw
    have hcont : ∀ w, ("example", w) ∉ contentFld := by
      intro w hw
      cases hpc : p.Content with
      | nil =>
        rw [hpc] at e3
        simp only [Except.ok.injEq] at e3
        rw [← e3] at hw
        simp at hw
      | cons x xs =>
        rw [hpc] at e3
        dsimp only at e3
        cases hmc : marshalMediaTypePairs fuel (x :: xs) with
        | error e =>
          rw [hmc] at e3
          simp [Except.map] at e3
        | ok ps =>
          rw [hmc] at e3
          simp only [Except.map, Except.ok.injEq] at e3
          rw [← e3] at hw
          simp at hw
    have hexs : ∀ w, ("example", w) ∉ examplesFldv := by
      intro w hw
      unfold examplesFld at e4
      cases hpe : p.Examples with
      | nil =>
        rw [hpe] at e4
        simp only [Except.ok.injEq] at e4
        rw [← e4] at hw
        simp at hw
      | cons x xs =>
        rw [hpe] at e4
        dsimp only at e4
        cases hme : examplesObj (x :: xs) with
        | error e =>
          rw [hme] at e4
          simp [Except.map] at e4
        | ok ps =>
          rw [hme] at e4
          simp only [Except.map, Except.ok.injEq] at e4
          rw [← e4] at hw
          simp at hw
    simp [Json.objFields, List.mem_append, fld, mem_optStrFld_iff,
      mem_optBoolFld_iff, mem_optJsonFld_iff, hsch, hcont, hexs]

/-- C8 witness: the three decode states on concrete `content`-based
payloads, and the encoded fragments with and without the present-null
`example` member. -/
theorem example_tristate_preserved_witness :
    (Parameter.unmarshalJSONm 20 Parameter.zero (.obj exAbsentFields)).1.Example = none ∧
    (Parameter.unmarshalJSONm 20 Parameter.zero (.obj exNullFields)).1.Example = some Json.null ∧
    (Parameter.unmarshalJSONm 20 Parameter.zero (.obj exValFields)).1.Example = some (Json.num 7) ∧
    ("example", Json.null) ∈ Json.objFields jExNullFixture ∧
    ¬ ("example", Json.null) ∈ Json.objFields jExAbsentFixture := by
  have h := example_tristate_preserved
  refine ⟨(h.1 20 exAbsentFields mpContentFixture sxcContentFixture locQueryFixture
      rfl rfl rfl rfl rfl).1 rfl,
    (h.1 20 exNullFields mpContentFixture sxcContentFixture locQueryFixture
      rfl rfl rfl rfl rfl).2.1 rfl,
    (h.1 20 exValFields mpExValFixture sxcContentFixture locQueryFixture
      rfl rfl rfl rfl rfl).2.2 (Json.num 7) rfl (fun hcontra => nomatch hcontra),
    (h.2 20 mpExNullFixture jExNullFixture rfl Json.null).mpr rfl,
    fun hmem => nomatch (h.2 20 mpContentFixture jExAbsentFixture rfl Json.null).mp hmem⟩

/-- The byte-level merge loop tracks the rule-level merge state: starting
from any invariant-respecting accumulator, `marshalUnionAux` computes
exactly the rendered result of `mergeSpec`, provided every object fragment
extends past its opening brace. -/
theorem marshalUnionAux_mergeSpec (maps : List (Except String (List Char))) :
    ∀ st : MState, st.inv →
    (∀ j, Except.ok j ∈ maps → j.head? = some '{' → 1 < j.length) →
    marshalUnionAux maps st.bytes st.isObj = (mergeSpec maps st).map MState.render := by
  induction maps with
  | nil =>
    intro st hinv hwf
    cases st with
    | empty => rfl
    | scal s => rfl
    | objA cs =>
      obtain ⟨hhd, hcl⟩ := hinv
      simp only [marshalUnionAux, mergeSpec, Except.map, MState.bytes, MState.isObj,
        MState.render]
      rw [if_neg (fun hc => absurd hc.2 (by omega))]
  | cons f rest ih =>
    intro st hinv hwf
    have hwf' : ∀ j, Except.ok j ∈ rest → j.head? = some '{' → 1 < j.length :=
      fun j hm => hwf j (List.mem_cons_of_mem _ hm)
    cases f with
    | error e => cases st <;> rfl
    | ok j =>
      by_cases h1 : j = emptyObjChars
      · have hb : marshalUnionAux (Except.ok j :: rest) st.bytes st.isObj =
            marshalUnionAux rest st.bytes st.isObj := by
          simp [marshalUnionAux, h1]
        have hsp : mergeSpec (Except.ok j :: rest) st = mergeSpec rest st := by
          simp [mergeSpec, h1]
        rw [hb, hsp]
        exact ih st hinv hwf'
      by_cases h2 : j = nullChars
      · have hb : marshalUnionAux (Except.ok j :: rest) st.bytes st.isObj =
            marshalUnionAux rest st.bytes st.isObj := by
          simp [marshalUnionAux, h1, h2]
        have hsp : mergeSpec (Except.ok j :: rest) st = mergeSpec rest st := by
          simp [mergeSpec, h1, h2]
        rw [hb, hsp]
        exact ih st hinv hwf'
      by_cases h3 : j.head? = some '{'
      · have hlen : 1 < j.length := hwf j (List.mem_cons_self _ _) h3
        obtain ⟨t, rfl⟩ : ∃ t, j = '{' :: t := by
          cases j with
          | nil => exact absurd h3 (by simp)
          | cons c t =>
            simp only [List.head?] at h3
            exact ⟨t, by rw [Option.some.inj h3]⟩
        cases st with
        | empty =>
          have hb : marshalUnionAux (Except.ok ('{' :: t) :: rest)
              MState.empty.bytes MState.empty.isObj =
              marshalUnionAux rest ('{' :: t) true := by
            simp only [marshalUnionAux, MState.bytes, MState.isObj]
            rw [if_neg h1, if_neg h2, if_neg (by simp), if_neg (by simp)]
            rw [if_neg (by simp : ¬((['{'] : List Char).length > 1))]
            rfl
          have hsp : mergeSpec (Except.ok ('{' :: t) :: rest) MState.empty =
              mergeSpec rest (.objA ('{' :: t)) := by
            simp only [mergeSpec]
            rw [if_neg (by simp [h1, h2]), if_pos h3]
          rw [hb, hsp]
          exact ih (.objA ('{' :: t)) ⟨rfl, hlen⟩ hwf'
        | scal s =>
          have hb : marshalUnionAux (Except.ok ('{' :: t) :: rest)
              (MState.scal s).bytes (MState.scal s).isObj =
              .error ("failed to union " ++ String.mk s ++ " and " ++ String.mk ('{' :: t)) := by
            simp only [marshalUnionAux, MState.bytes, MState.isObj]
            rw [if_neg h1, if_neg h2, if_neg (by simp), if_pos (by simp)]
          have hsp : mergeSpec (Except.ok ('{' :: t) :: rest) (MState.scal s) =
              .error ("failed to union " ++ String.mk s ++ " and " ++ String.mk ('{' :: t)) := by
            simp only [mergeSpec]
            rw [if_neg (by simp [h1, h2]), if_pos h3]
          rw [hb, hsp]
          rfl
        | objA cs =>
          obtain ⟨hhd, hcl⟩ := hinv
          obtain ⟨d, cs', rfl⟩ : ∃ d cs', cs = '{' :: d :: cs' := by
            cases cs with
            | nil => exact absurd hhd (by simp)
            | cons c cs0 =>
              cases cs0 with
              | nil => simp at hcl
              | cons d cs' =>
                simp only [List.head?] at hhd
                exact ⟨d, cs', by rw [Option.some.inj hhd]⟩
          have hb : marshalUnionAux (Except.ok ('{' :: t) :: rest)
              (MState.objA ('{' :: d :: cs')).bytes (MState.objA ('{' :: d :: cs')).isObj =
              marshalUnionAux rest (('{' :: d :: cs').dropLast ++ ',' :: t) true := by
            simp only [marshalUnionAux, MState.bytes, MState.isObj]
            rw [if_neg h1, if_neg h2, if_neg (by simp), if_neg (by simp)]
            rw [if_pos (by simp)]
            congr 1
            simp
          have hsp : mergeSpec (Except.ok ('{' :: t) :: rest) (MState.objA ('{' :: d :: cs')) =
              mergeSpec rest (.objA (('{' :: d :: cs').dropLast ++ ',' :: t)) := by
            simp only [mergeSpec]
            rw [if_neg (by simp [h1, h2]), if_pos h3]
            rfl
          rw [hb, hsp]
          refine ih (.objA (('{' :: d :: cs').dropLast ++ ',' :: t)) ⟨?_, ?_⟩ hwf'
          · simp [List.dropLast]
          · simp
      · cases st with
        | empty =>
          have hb : marshalUnionAux (Except.ok j :: rest)
              MState.empty.bytes MState.empty.isObj =
              marshalUnionAux rest j false := by
            simp only [marshalUnionAux, MState.bytes, MState.isObj]
            rw [if_neg h1, if_neg h2, if_pos (by simp [h3]), if_pos (by simp)]
          have hsp : mergeSpec (Except.ok j :: rest) MState.empty =
              mergeSpec rest (.scal j) := by
            simp only [mergeSpec]
            rw [if_neg (by simp [h1, h2]), if_neg h3]
          rw [hb, hsp]
          exact ih (.scal j) trivial hwf'
        | scal s =>
          by_cases hc : s.length = 1 ∧ s = j
          · have hb : marshalUnionAux (Except.ok j :: rest)
                (MState.scal s).bytes (MState.scal s).isObj =
                marshalUnionAux rest j false := by
              simp only [marshalUnionAux, MState.bytes, MState.isObj]
              rw [if_neg h1, if_neg h2, if_pos (by simp [h3]),
                if_pos ⟨hc.1, Or.inr hc.2⟩]
            have hsp : mergeSpec (Except.ok j :: rest) (MState.scal s) =
                mergeSpec rest (.scal s) := by
              simp only [mergeSpec]
              rw [if_neg (by simp [h1, h2]), if_neg h3, if_pos hc]
            rw [hb, hsp, ← hc.2]
            exact ih (.scal s) trivial hwf'
          · have hb : marshalUnionAux (Except.ok j :: rest)
                (MState.scal s).bytes (MState.scal s).isObj =
                .error ("failed to union map: object expected, " ++
                  String.mk j ++ " received") := by
              simp only [marshalUnionAux, MState.bytes, MState.isObj]
              rw [if_neg h1, if_neg h2, if_pos (by simp [h3]),
                if_neg (by rintro ⟨ha, hb2⟩; exact hc ⟨ha, hb2.resolve_left (by simp)⟩)]
            have hsp : mergeSpec (Except.ok j :: rest) (MState.scal s) =
                .error ("failed to union map: object expected, " ++
                  String.mk j ++ " received") := by
              simp only [mergeSpec]
              rw [if_neg (by simp [h1, h2]), if_neg h3, if_neg hc]
            rw [hb, hsp]
            rfl
        | objA cs =>
          obtain ⟨hhd, hcl⟩ := hinv
          have hb : marshalUnionAux (Except.ok j :: rest)
              (MState.objA cs).bytes (MState.objA cs).isObj =
              .error ("failed to union map: object expected, " ++
                String.mk j ++ " received") := by
            simp only [marshalUnionAux, MState.bytes, MState.isObj]
            rw [if_neg h1, if_neg h2, if_pos (by simp [h3]),
              if_neg (by rintro ⟨ha, _⟩; omega)]
          have hsp : mergeSpec (Except.ok j :: rest) (MState.objA cs) =
              .error ("failed to union map: object expected, " ++
                String.mk j ++ " received") := by
            simp only [mergeSpec]
            rw [if_neg (by simp [h1, h2]), if_neg h3]
          rw [hb, hsp]
          rfl

/-- C6 amended: over fragments whose serialized object forms extend past
the opening brace, `marshalUnion` implements the merge rules of
`mergeSpec`: `\x7b\x7d` and `null` fragments are skipped; object fragments
open or extend the accumulated members in list order; a scalar fragment is
adopted while nothing has been merged, tolerated when it byte-equals a
single-byte adopted scalar, and otherwise — like any object fragment after
a scalar — yields an error value returned to the caller. -/
theorem marshalUnion_merge_rules (maps : List (Except String (List Char)))
    (hwf : ∀ j, Except.ok j ∈ maps → j.head? = some '{' → 1 < j.length) :
    marshalUnion maps = (mergeSpec maps .empty).map MState.render :=
  marshalUnionAux_mergeSpec maps .empty trivial hwf

/-- C6 witness: merging an object fragment, a skipped `null`, and a second
object fragment concatenates the members. -/
theorem marshalUnion_merge_rules_witness :
    marshalUnion [Except.ok ['{', 'a', '}'], Except.ok nullChars,
      Except.ok ['{', 'b', '}']] = .ok ['{', 'a', ',', 'b', '}'] :=
  (marshalUnion_merge_rules _ (by
    intro j hm h3
    simp at hm
    rcases hm with rfl | rfl | rfl <;> simp [nullChars])).trans rfl

theorem lookup_append (a b : RawMap) (k : String) :
    RawMap.lookup (a ++ b) k =
      match RawMap.lookup a k with
      | some v => some v
      | none => RawMap.lookup b k := by
  induction a with
  | nil => simp [RawMap.lookup]
  | cons p rest ih =>
    by_cases h : p.1 = k
    · simp [RawMap.lookup, h]
    · simpa [RawMap.lookup, h] using ih

theorem lookup_optStrFld_self (k : String) (o : Option String) :
    RawMap.lookup (optStrFld k o) k = Option.map Json.str o := by
  cases o <;> simp [optStrFld, RawMap.lookup]

theorem lookup_optStrFld_ne (k' k : String) (o : Option String) (h : ¬ k' = k) :
    RawMap.lookup (optStrFld k' o) k = none := by
  cases o <;> simp [optStrFld, RawMap.lookup, h]

theorem lookup_fld_self (k : String) (v : Json) : RawMap.lookup (fld k v) k = some v := by
  simp [fld, RawMap.lookup]

theorem lookup_fld_ne (k' k : String) (v : Json) (h : ¬ k' = k) :
    RawMap.lookup (fld k' v) k = none := by
  simp [fld, RawMap.lookup, h]

theorem lookup_xbucket (m : RawMap) (k : String)
    (hx : ∀ p ∈ m, matchesX p.1 = true) (hk : matchesX k = false) :
    RawMap.lookup m k = none := by
  induction m with
  | nil => rfl
  | cons p rest ih =>
    have hp := hx p (List.mem_cons_self _ _)
    have hne : ¬ p.1 = k := fun he => by rw [he, hk] at hp; exact Bool.noConfusion hp
    simpa [RawMap.lookup, hne] using ih (fun q hq => hx q (List.mem_cons_of_mem _ hq))

theorem erase_append (a b : RawMap) (k : String) :
    RawMap.erase (a ++ b) k = RawMap.erase a k ++ RawMap.erase b k := by
  induction a with
  | nil => rfl
  | cons p rest ih =>
    by_cases h : p.1 = k <;> simp [RawMap.erase, h, ih]

theorem eraseKeys_append (a b : RawMap) (ks : List String) :
    RawMap.eraseKeys (a ++ b) ks = RawMap.eraseKeys a ks ++ RawMap.eraseKeys b ks := by
  induction ks generalizing a b with
  | nil => rfl
  | cons k rest ih =>
    simp only [RawMap.eraseKeys, List.foldl_cons] at ih ⊢
    rw [erase_append, ih]

theorem mem_erase (m : RawMap) (k : String) (p : String × Json) :
    p ∈ RawMap.erase m k ↔ p ∈ m ∧ ¬ p.1 = k := by
  induction m with
  | nil => simp [RawMap.erase]
  | cons q rest ih =>
    by_cases h : q.1 = k
    · rw [show RawMap.erase (q :: rest) k = RawMap.erase rest k by simp [RawMap.erase, h]]
      rw [ih]
      constructor
      · exact fun ⟨h1, h2⟩ => ⟨List.mem_cons_of_mem _ h1, h2⟩
      · rintro ⟨h1, h2⟩
        rcases List.mem_cons.mp h1 with rfl | h1
        · exact absurd h h2
        · exact ⟨h1, h2⟩
    · rw [show RawMap.erase (q :: rest) k = q :: RawMap.erase rest k by simp [RawMap.erase, h]]
      constructor
      · intro hm
        rcases List.mem_cons.mp hm with rfl | hm
        · exact ⟨List.mem_cons_self _ _, h⟩
        · exact ⟨List.mem_cons_of_mem _ (ih.mp hm).1, (ih.mp hm).2⟩
      · rintro ⟨h1, h2⟩
        rcases List.mem_cons.mp h1 with rfl | h1
        · exact List.mem_cons_self _ _
        · exact List.mem_cons_of_mem _ (ih.mpr ⟨h1, h2⟩)

theorem mem_eraseKeys (m : RawMap) (ks : List String) (p : String × Json) :
    p ∈ RawMap.eraseKeys m ks ↔ p ∈ m ∧ ¬ p.1 ∈ ks := by
  induction ks generalizing m with
  | nil => simp [RawMap.eraseKeys]
  | cons k rest ih =>
    simp only [RawMap.eraseKeys, List.foldl_cons] at ih ⊢
    rw [ih, mem_erase]
    simp only [List.mem_cons]
    constructor
    · rintro ⟨⟨h1, h2⟩, h3⟩
      exact ⟨h1, fun hc => hc.elim h2 h3⟩
    · rintro ⟨h1, h2⟩
      exact ⟨⟨h1, fun hc => h2 (Or.inl hc)⟩, fun hc => h2 (Or.inr hc)⟩

theorem eraseKeys_nil_of_sub (m : RawMap) (ks : List String)
    (h : ∀ p ∈ m, p.1 ∈ ks) : RawMap.eraseKeys m ks = [] := by
  rw [List.eq_nil_iff_forall_not_mem]
  intro p hp
  exact ((mem_eraseKeys m ks p).mp hp).2 (h p ((mem_eraseKeys m ks p).mp hp).1)

theorem erase_of_not_key (m : RawMap) (k : String) (h : ∀ p ∈ m, ¬ p.1 = k) :
    RawMap.erase m k = m := by
  induction m with
  | nil => rfl
  | cons p rest ih =>
    rw [show RawMap.erase (p :: rest) k = p :: RawMap.erase rest k by
      simp [RawMap.erase, h p (List.mem_cons_self _ _)]]
    rw [ih (fun q hq => h q (List.mem_cons_of_mem _ hq))]

theorem eraseKeys_id (m : RawMap) (ks : List String)
    (h : ∀ p ∈ m, ¬ p.1 ∈ ks) : RawMap.eraseKeys m ks = m := by
  induction ks with
  | nil => rfl
  | cons k rest ih =>
    show RawMap.eraseKeys (RawMap.erase m k) rest = m
    rw [erase_of_not_key m k (fun p hp hc => h p hp (by rw [hc]; exact List.mem_cons_self _ _))]
    exact ih (fun p hp hc => h p hp (List.mem_cons_of_mem _ hc))

theorem assocSet_fresh (b : List (String × Json)) (k : String) (v : Json)
    (h : ((b.map Prod.fst).contains k) = false) : assocSet b k v = b ++ [(k, v)] := by
  induction b with
  | nil => rfl
  | cons p rest ih =>
    simp only [List.map_cons, List.contains_cons, Bool.or_eq_false_iff] at h
    have hne : ¬ p.1 = k := fun hc => by
      rw [hc] at h
      simp at h
    simp [assocSet, hne, ih h.2]

theorem contains_false_iff (l : List String) (k : String) :
    l.contains k = false ↔ ¬ k ∈ l := by
  induction l with
  | nil => simp
  | cons a l ih =>
    simp only [List.contains_cons, Bool.or_eq_false_iff, List.mem_cons, ih]
    constructor
    · rintro ⟨h1, h2⟩ (rfl | hm)
      · simp at h1
      · exact h2 hm
    · intro h
      refine ⟨?_, fun hm => h (Or.inr hm)⟩
      by_cases he : k = a
      · exact absurd (Or.inl he) h
      · simp [he]

theorem routeX_xbucket (m : RawMap) (b : List (String × Json))
    (hx : ∀ p ∈ m, matchesX p.1 = true)
    (hnd : listNodupB (m.map Prod.fst) = true)
    (hdis : ∀ p ∈ m, ((b.map Prod.fst).contains p.1) = false) :
    routeX m b = (b ++ m, []) := by
  induction m generalizing b with
  | nil => simp [routeX]
  | cons p rest ih =>
    have hp := hx p (List.mem_cons_self _ _)
    simp only [List.map_cons, listNodupB, Bool.and_eq_true, Bool.not_eq_true'] at hnd
    rw [show routeX (p :: rest) b = routeX rest (assocSet b p.1 p.2) by
      simp [routeX, hp]]
    rw [assocSet_fresh b p.1 p.2 (hdis p (List.mem_cons_self _ _))]
    rw [ih (b ++ [(p.1, p.2)]) (fun q hq => hx q (List.mem_cons_of_mem _ hq)) hnd.2 ?_]
    · simp
    · intro q hq
      have h1 := hdis q (List.mem_cons_of_mem _ hq)
      have h2 : ¬ q.1 = p.1 := by
        intro hc
        have hpm : p.1 ∈ rest.map Prod.fst := hc ▸ List.mem_map_of_mem Prod.fst hq
        exact (contains_false_iff _ _).mp hnd.1 hpm
      rw [contains_false_iff] at h1 ⊢
      simp only [List.map_append, List.mem_append]
      rintro (hm | hm)
      · exact h1 hm
      · simp at hm
        exact h2 hm



theorem unionJson_two (f1 f2 : Json) (h1 : f1.isObjOrNull) (h2 : f2.isObjOrNull) :
    unionJson [.ok f1, .ok f2] = .ok (.obj (f1.objFields ++ f2.objFields)) := by
  cases f1 with
  | null =>
    cases f2 with
    | null => rfl
    | obj fs2 =>
      cases fs2 with
      | nil => rfl
      | cons p rest => rfl
    | bool b => exact h2.elim
    | num n => exact h2.elim
    | str s => exact h2.elim
    | arr xs => exact h2.elim
  | obj fs1 =>
    cases fs1 with
    | nil =>
      cases f2 with
      | null => rfl
      | obj fs2 =>
        cases fs2 with
        | nil => rfl
        | cons p rest => rfl
      | bool b => exact h2.elim
      | num n => exact h2.elim
      | str s => exact h2.elim
      | arr xs => exact h2.elim
    | cons q rest1 =>
      cases f2 with
      | null => simp [unionJson, unionJsonAux, unionStep, UState.render, Json.objFields]
      | obj fs2 =>
        cases fs2 with
        | nil => simp [unionJson, unionJsonAux, unionStep, UState.render, Json.objFields]
        | cons p rest2 => simp [unionJson, unionJsonAux, unionStep, UState.render, Json.objFields]
      | bool b => exact h2.elim
      | num n => exact h2.elim
      | str s => exact h2.elim
      | arr xs => exact h2.elim
  | bool b => exact h1.elim
  | num n => exact h1.elim
  | str s => exact h1.elim
  | arr xs => exact h1.elim

theorem mapFrag_objFields (m : List (String × Json)) : (mapFrag m).objFields = m := by
  cases m with
  | nil => rfl
  | cons p rest => rfl

theorem mapFrag_isObjOrNull (m : List (String × Json)) : (mapFrag m).isObjOrNull := by
  cases m with
  | nil => trivial
  | cons p rest => trivial

theorem xbucketWF_parts (m : List (String × Json)) (h : xbucketWFb m = true) :
    (∀ p ∈ m, matchesX p.1 = true) ∧ listNodupB (m.map Prod.fst) = true := by
  simp only [xbucketWFb, Bool.and_eq_true, List.all_eq_true] at h
  exact ⟨fun p hp => h.1 p hp, h.2⟩





theorem contact_marshalJSONj (c : Contact) :
    Contact.marshalJSONj c = .ok (Contact.flat c) := by
  unfold Contact.marshalJSONj Contact.flat
  rw [unionJson_two (Contact.structJson c) (mapFrag c.MapOfAnything)
    (by unfold Contact.structJson; exact trivial) (mapFrag_isObjOrNull _), mapFrag_objFields]

theorem license_marshalJSONj (l : License) :
    License.marshalJSONj l = .ok (License.flat l) := by
  unfold License.marshalJSONj License.flat
  rw [unionJson_two (License.structJson l) (mapFrag l.MapOfAnything)
    (by unfold License.structJson; exact trivial) (mapFrag_isObjOrNull _), mapFrag_objFields]

theorem contact_marshal_bytes (c : Contact) :
    Contact.marshalJSON c = .ok (Json.serialize (Contact.flat c)) := by
  unfold Contact.marshalJSON Contact.flat
  rw [marshalUnion_two_frags (Contact.structJson c) (mapFrag c.MapOfAnything)
    (by unfold Contact.structJson; exact trivial) (mapFrag_isObjOrNull _), mapFrag_objFields]

theorem license_marshal_bytes (l : License) :
    License.marshalJSON l = .ok (Json.serialize (License.flat l)) := by
  unfold License.marshalJSON License.flat
  rw [marshalUnion_two_frags (License.structJson l) (mapFrag l.MapOfAnything)
    (by unfold License.structJson; exact trivial) (mapFrag_isObjOrNull _), mapFrag_objFields]

theorem contact_rt_decode (c : Contact) (hw : Contact.wfb c = true) :
    Contact.unmarshalJSON Contact.zero (Contact.flat c) = .ok c := by
  obtain ⟨hx, hnd⟩ := xbucketWF_parts _ hw
  have hbn := lookup_xbucket c.MapOfAnything "name" hx rfl
  have hbu := lookup_xbucket c.MapOfAnything "url" hx rfl
  have hbe := lookup_xbucket c.MapOfAnything "email" hx rfl
  have hname : decOptStrF Contact.zero.Name
      ((Contact.structJson c).objFields ++ c.MapOfAnything) "name" = .ok c.Name := by
    cases hc : c.Name <;>
      simp [decOptStrF, Contact.structJson, Json.objFields, lookup_append,
        lookup_optStrFld_self, lookup_optStrFld_ne, hbn, hc, Contact.zero]
  have hurl : decOptStrF Contact.zero.URL
      ((Contact.structJson c).objFields ++ c.MapOfAnything) "url" = .ok c.URL := by
    cases hc : c.URL <;>
      simp [decOptStrF, Contact.structJson, Json.objFields, lookup_append,
        lookup_optStrFld_self, lookup_optStrFld_ne, hbu, hc, Contact.zero]
  have hemail : decOptStrF Contact.zero.Email
      ((Contact.structJson c).objFields ++ c.MapOfAnything) "email" = .ok c.Email := by
    cases hc : c.Email <;>
      simp [decOptStrF, Contact.structJson, Json.objFields, lookup_append,
        lookup_optStrFld_self, lookup_optStrFld_ne, hbe, hc, Contact.zero]
  have hsd : Contact.structDec Contact.zero (Contact.flat c) =
      .ok ⟨c.Name, c.URL, c.Email, []⟩ := by
    show Contact.structDec Contact.zero
      (.obj ((Contact.structJson c).objFields ++ c.MapOfAnything)) = _
    rw [Contact.structDec]
    rw [hname]
    simp only [bind, Except.bind]
    rw [hurl]
    rw [hemail]
    rfl
  have hkeys : ∀ p ∈ (Contact.structJson c).objFields, p.1 ∈ knownKeysContact := by
    intro p hp
    simp only [Contact.structJson, Json.objFields, List.mem_append,
      mem_optStrFld_iff] at hp
    rcases hp with (⟨s, _, rfl⟩ | ⟨s, _, rfl⟩) | ⟨s, _, rfl⟩ <;>
      simp [knownKeysContact]
  have hbkeys : ∀ p ∈ c.MapOfAnything, ¬ p.1 ∈ knownKeysContact := by
    intro p hp hm
    have hpx := hx p hp
    simp only [knownKeysContact, List.mem_cons, List.not_mem_nil, or_false] at hm
    rcases hm with hm | hm | hm <;> (rw [hm] at hpx; exact absurd hpx (by decide))
  unfold Contact.unmarshalJSON
  rw [hsd]
  unfold Contact.flat
  simp only [bind, Except.bind, Json.rawMap]
  rw [eraseKeys_append, eraseKeys_nil_of_sub _ _ hkeys, eraseKeys_id _ _ hbkeys,
    List.nil_append]
  rw [routeX_xbucket c.MapOfAnything [] hx hnd (fun p _ => rfl)]
  rfl



theorem license_rt_decode (l : License) (hw : License.wfb l = true) :
    License.unmarshalJSON License.zero (License.flat l) = .ok l := by
  obtain ⟨hx, hnd⟩ := xbucketWF_parts _ hw
  have hbu := lookup_xbucket l.MapOfAnything "url" hx rfl
  have hname : decStrF License.zero.Name
      ((License.structJson l).objFields ++ l.MapOfAnything) "name" = .ok l.Name := by
    simp [decStrF, License.structJson, Json.objFields, lookup_append,
      lookup_fld_self, decStrV]
  have hurl : decOptStrF License.zero.URL
      ((License.structJson l).objFields ++ l.MapOfAnything) "url" = .ok l.URL := by
    cases hc : l.URL <;>
      simp [decOptStrF, License.structJson, Json.objFields, lookup_append,
        lookup_fld_ne, lookup_optStrFld_self, lookup_optStrFld_ne, hbu, hc, License.zero]
  have hsd : License.structDec License.zero (License.flat l) =
      .ok ⟨l.Name, l.URL, []⟩ := by
    show License.structDec License.zero
      (.obj ((License.structJson l).objFields ++ l.MapOfAnything)) = _
    rw [License.structDec]
    rw [hname]
    simp only [bind, Except.bind]
    rw [hurl]
    rfl
  have hreq : firstMissing requireKeysLicense
      ((License.structJson l).objFields ++ l.MapOfAnything) = none := by
    simp [firstMissing, requireKeysLicense, RawMap.has, License.structJson,
      Json.objFields, lookup_append, lookup_fld_self, List.find?]
  have hkeys : ∀ p ∈ (License.structJson l).objFields, p.1 ∈ knownKeysLicense := by
    intro p hp
    simp only [License.structJson, Json.objFields, List.mem_append, fld,
      List.mem_singleton, mem_optStrFld_iff] at hp
    rcases hp with rfl | ⟨s, _, rfl⟩ <;> simp [knownKeysLicense]
  have hbkeys : ∀ p ∈ l.MapOfAnything, ¬ p.1 ∈ knownKeysLicense := by
    intro p hp hm
    have hpx := hx p hp
    simp only [knownKeysLicense, List.mem_cons, List.not_mem_nil, or_false] at hm
    rcases hm with hm | hm <;> (rw [hm] at hpx; exact absurd hpx (by decide))
  unfold License.unmarshalJSON
  rw [hsd]
  unfold License.flat
  simp only [bind, Except.bind, Json.rawMap]
  rw [hreq]
  rw [eraseKeys_append, eraseKeys_nil_of_sub _ _ hkeys, eraseKeys_id _ _ hbkeys,
    List.nil_append]
  rw [routeX_xbucket l.MapOfAnything [] hx hnd (fun p _ => rfl)]
  rfl







theorem lookup_infoContactFld_self (o : Option Contact) :
    RawMap.lookup (infoContactFld o) "contact" = o.map Contact.flat := by
  cases o <;> simp [infoContactFld, RawMap.lookup]

theorem lookup_infoContactFld_ne (o : Option Contact) (k : String) (h : ¬ "contact" = k) :
    RawMap.lookup (infoContactFld o) k = none := by
  cases o <;> simp [infoContactFld, RawMap.lookup, h]

theorem lookup_infoLicenseFld_self (o : Option License) :
    RawMap.lookup (infoLicenseFld o) "license" = o.map License.flat := by
  cases o <;> simp [infoLicenseFld, RawMap.lookup]

theorem lookup_infoLicenseFld_ne (o : Option License) (k : String) (h : ¬ "license" = k) :
    RawMap.lookup (infoLicenseFld o) k = none := by
  cases o <;> simp [infoLicenseFld, RawMap.lookup, h]

theorem info_structJson (i : Info) : Info.structJson i = .ok (.obj (infoFields i)) := by
  unfold Info.structJson infoFields
  cases hc : i.Contact <;> cases hl : i.License <;>
    simp [optSubFld, contact_marshalJSONj, license_marshalJSONj, bind, Except.bind,
      infoContactFld, infoLicenseFld]

theorem info_marshal_bytes (i : Info) :
    Info.marshalJSON i = .ok (Json.serialize (Info.flat i)) := by
  unfold Info.marshalJSON
  rw [info_structJson]
  simp only [Except.map]
  rw [marshalUnion_two_frags (.obj (infoFields i)) (mapFrag i.MapOfAnything)
    trivial (mapFrag_isObjOrNull _), mapFrag_objFields]
  rfl

theorem info_wf_parts (i : Info) (hw : Info.wfb i = true) :
    xbucketWFb i.MapOfAnything = true ∧
    (∀ c, i.Contact = some c → Contact.wfb c = true) ∧
    (∀ l, i.License = some l → License.wfb l = true) := by
  unfold Info.wfb at hw
  simp only [Bool.and_eq_true] at hw
  refine ⟨hw.1.1, ?_, ?_⟩
  · intro c hc
    have h2 := hw.1.2
    rw [hc] at h2
    exact h2
  · intro l hl
    have h2 := hw.2
    rw [hl] at h2
    exact h2

theorem decPtrF_flatContact (m : RawMap) (k : String) (c : Contact)
    (hl : RawMap.lookup m k = some (Contact.flat c)) (hw : Contact.wfb c = true) :
    decPtrF Contact.zero Contact.unmarshalJSON none m k = .ok (some c) := by
  unfold decPtrF
  rw [hl]
  show (Contact.unmarshalJSON (Option.getD none Contact.zero) (Contact.flat c)).map some =
    .ok (some c)
  rw [show Option.getD none Contact.zero = Contact.zero from rfl]
  rw [contact_rt_decode c hw]
  rfl

theorem decPtrF_flatLicense (m : RawMap) (k : String) (l : License)
    (hl : RawMap.lookup m k = some (License.flat l)) (hw : License.wfb l = true) :
    decPtrF License.zero License.unmarshalJSON none m k = .ok (some l) := by
  unfold decPtrF
  rw [hl]
  show (License.unmarshalJSON (Option.getD none License.zero) (License.flat l)).map some =
    .ok (some l)
  rw [show Option.getD none License.zero = License.zero from rfl]
  rw [license_rt_decode l hw]
  rfl



theorem info_rt_decode (i : Info) (hw : Info.wfb i = true) :
    Info.unmarshalJSON Info.zero (Info.flat i) = .ok i := by
  obtain ⟨hxb, hcw, hlw⟩ := info_wf_parts i hw
  obtain ⟨hx, hnd⟩ := xbucketWF_parts _ hxb
  have hbd := lookup_xbucket i.MapOfAnything "description" hx rfl
  have hbs := lookup_xbucket i.MapOfAnything "termsOfService" hx rfl
  have hbc := lookup_xbucket i.MapOfAnything "contact" hx rfl
  have hbl := lookup_xbucket i.MapOfAnything "license" hx rfl
  have htitle : decStrF Info.zero.Title (infoFields i ++ i.MapOfAnything) "title" =
      .ok i.Title := by
    simp [decStrF, infoFields, lookup_append, lookup_fld_self, decStrV]
  have hdesc : decOptStrF Info.zero.Description (infoFields i ++ i.MapOfAnything)
      "description" = .ok i.Description := by
    cases hc : i.Description <;>
      simp [decOptStrF, infoFields, lookup_append, lookup_fld_ne, lookup_optStrFld_self,
        lookup_optStrFld_ne, lookup_infoContactFld_ne, lookup_infoLicenseFld_ne,
        hbd, hc, Info.zero]
  have htos : decOptStrF Info.zero.TermsOfService (infoFields i ++ i.MapOfAnything)
      "termsOfService" = .ok i.TermsOfService := by
    cases hc : i.TermsOfService <;>
      simp [decOptStrF, infoFields, lookup_append, lookup_fld_ne, lookup_optStrFld_self,
        lookup_optStrFld_ne, lookup_infoContactFld_ne, lookup_infoLicenseFld_ne,
        hbs, hc, Info.zero]
  have hcontact : decPtrF Contact.zero Contact.unmarshalJSON Info.zero.Contact
      (infoFields i ++ i.MapOfAnything) "contact" = .ok i.Contact := by
    cases hc : i.Contact with
    | none =>
      have hl0 : RawMap.lookup (infoFields i ++ i.MapOfAnything) "contact" = none := by
        simp [infoFields, lookup_append, lookup_fld_ne, lookup_optStrFld_ne,
          lookup_infoContactFld_self, lookup_infoLicenseFld_ne, hbc, hc]
      simp [decPtrF, hl0, Info.zero]
    | some c =>
      have hl0 : RawMap.lookup (infoFields i ++ i.MapOfAnything) "contact" =
          some (Contact.flat c) := by
        simp [infoFields, lookup_append, lookup_fld_ne, lookup_optStrFld_ne,
          lookup_infoContactFld_self, lookup_infoLicenseFld_ne, hbc, hc]
      exact decPtrF_flatContact _ _ c hl0 (hcw c hc)
  have hlicense : decPtrF License.zero License.unmarshalJSON Info.zero.License
      (infoFields i ++ i.MapOfAnything) "license" = .ok i.License := by
    cases hc : i.License with
    | none =>
      have hl0 : RawMap.lookup (infoFields i ++ i.MapOfAnything) "license" = none := by
        simp [infoFields, lookup_append, lookup_fld_ne, lookup_optStrFld_ne,
          lookup_infoContactFld_ne, lookup_infoLicenseFld_self, hbl, hc]
      simp [decPtrF, hl0, Info.zero]
    | some l =>
      have hl0 : RawMap.lookup (infoFields i ++ i.MapOfAnything) "license" =
          some (License.flat l) := by
        simp [infoFields, lookup_append, lookup_fld_ne, lookup_optStrFld_ne,
          lookup_infoContactFld_ne, lookup_infoLicenseFld_self, hbl, hc]
      exact decPtrF_flatLicense _ _ l hl0 (hlw l hc)
  have hversion : decStrF Info.zero.Version (infoFields i ++ i.MapOfAnything)
      "version" = .ok i.Version := by
    simp [decStrF, infoFields, lookup_append, lookup_fld_ne, lookup_fld_self,
      lookup_optStrFld_ne, lookup_infoContactFld_ne, lookup_infoLicenseFld_ne, decStrV]
  have hsd : Info.structDec Info.zero (Info.flat i) =
      .ok ⟨i.Title, i.Description, i.TermsOfService, i.Contact, i.License,
        i.Version, []⟩ := by
    show Info.structDec Info.zero (.obj (infoFields i ++ i.MapOfAnything)) = _
    rw [Info.structDec]
    rw [htitle]
    simp only [bind, Except.bind]
    rw [hdesc]
    rw [htos]
    rw [hcontact]
    rw [hlicense]
    rw [hversion]
    rfl
  have hreq : firstMissing requireKeysInfo (infoFields i ++ i.MapOfAnything) = none := by
    simp [firstMissing, requireKeysInfo, RawMap.has, infoFields, lookup_append,
      lookup_fld_self, lookup_fld_ne, lookup_optStrFld_ne, lookup_infoContactFld_ne,
      lookup_infoLicenseFld_ne, List.find?]
  have hkeys : ∀ p ∈ infoFields i, p.1 ∈ knownKeysInfo := by
    intro p hp
    simp only [infoFields, List.mem_append, fld, List.mem_singleton,
      mem_optStrFld_iff] at hp
    rcases hp with ((((rfl | ⟨s, _, rfl⟩) | ⟨s, _, rfl⟩) | hp) | hp) | rfl
    · simp [knownKeysInfo]
    · simp [knownKeysInfo]
    · simp [knownKeysInfo]
    · cases hoc : i.Contact with
      | none => rw [hoc] at hp; simp [infoContactFld] at hp
      | some c =>
        rw [hoc] at hp
        simp only [infoContactFld, List.mem_singleton] at hp
        rw [hp]
        simp [knownKeysInfo]
    · cases hol : i.License with
      | none => rw [hol] at hp; simp [infoLicenseFld] at hp
      | some l =>
        rw [hol] at hp
        simp only [infoLicenseFld, List.mem_singleton] at hp
        rw [hp]
        simp [knownKeysInfo]
    · simp [knownKeysInfo]
  have hbkeys : ∀ p ∈ i.MapOfAnything, ¬ p.1 ∈ knownKeysInfo := by
    intro p hp hm
    have hpx := hx p hp
    simp only [knownKeysInfo, List.mem_cons, List.not_mem_nil, or_false] at hm
    rcases hm with hm | hm | hm | hm | hm | hm <;>
      (rw [hm] at hpx; exact absurd hpx (by decide))
  unfold Info.unmarshalJSON
  rw [hsd]
  unfold Info.flat
  simp only [bind, Except.bind, Json.rawMap]
  rw [hreq]
  rw [eraseKeys_append, eraseKeys_nil_of_sub _ _ hkeys, eraseKeys_id _ _ hbkeys,
    List.nil_append]
  rw [routeX_xbucket i.MapOfAnything [] hx hnd (fun p _ => rfl)]
  rfl



/-- C1: for every schema-valid `Contact`, `License`, and `Info` value
(extension buckets well-formed), `MarshalJSON` produces exactly the
serialization of the node's flat object — known-field members followed by
the extension-bucket members — and `UnmarshalJSON` of that flat object
from the zero receiver reproduces the original node field-for-field,
extension entries included. -/
theorem encode_decode_round_trip :
    (∀ c : Contact, Contact.wfb c = true →
      Contact.marshalJSON c = .ok (Json.serialize (Contact.flat c)) ∧
      Contact.unmarshalJSON Contact.zero (Contact.flat c) = .ok c) ∧
    (∀ l : License, License.wfb l = true →
      License.marshalJSON l = .ok (Json.serialize (License.flat l)) ∧
      License.unmarshalJSON License.zero (License.flat l) = .ok l) ∧
    (∀ i : Info, Info.wfb i = true →
      Info.marshalJSON i = .ok (Json.serialize (Info.flat i)) ∧
      Info.unmarshalJSON Info.zero (Info.flat i) = .ok i) :=
  ⟨fun c hw => ⟨contact_marshal_bytes c, contact_rt_decode c hw⟩,
   fun l hw => ⟨license_marshal_bytes l, license_rt_decode l hw⟩,
   fun i hw => ⟨info_marshal_bytes i, info_rt_decode i hw⟩⟩

/-- C1 witness: the two-level `Info` fixture (extension entries on the
node and inside its `Contact`) survives the encode/decode cycle. -/
theorem encode_decode_round_trip_witness :
    Info.wfb myInfoFixture = true ∧
    Info.marshalJSON myInfoFixture = .ok (Json.serialize (Info.flat myInfoFixture)) ∧
    Info.unmarshalJSON Info.zero (Info.flat myInfoFixture) = .ok myInfoFixture :=
  ⟨rfl, (encode_decode_round_trip.2.2 myInfoFixture rfl).1,
    (encode_decode_round_trip.2.2 myInfoFixture rfl).2⟩

end Openapi3
